import Mathlib

/-!
Verification of the playground build & sync engine in
`src/commands/playground.ts`: file-role classification, transpiler
adapters, manifest resolution with react-library auto-injection, editor
layout planning, the debounced change dispatcher, and the template
quick-pick.  JavaScript strings are modelled as Lean `String`/`List Char`;
the JSON values handled by `JSON.parse`/`JSON.stringify` are modelled by
the inductive `Json` below.  Host-editor side effects (webview update
calls, file writes) are reified as values so that theorems can speak about
which calls a code path issues.
-/

/-! ### JavaScript string primitives -/

/-- Whitespace accepted by `JSON.parse` between tokens (ECMA-404: space,
tab, line feed, carriage return). -/
def isJsonWs (c : Char) : Bool :=
  c = ' ' || c = '\t' || c = '\n' || c = '\r'

/-- Whitespace removed by JavaScript `String.prototype.trim` (WhiteSpace
and LineTerminator code points). -/
def isJsWhitespace (c : Char) : Bool :=
  c = ' ' || c = '\t' || c = '\n' || c = '\r' || c = '\x0b' || c = '\x0c' ||
  c = '\u00a0' || c = '\ufeff' || c = '\u1680' ||
  ('\u2000' ≤ c && c ≤ '\u200a') ||
  c = '\u2028' || c = '\u2029' || c = '\u202f' || c = '\u205f' || c = '\u3000'

/-- Models JavaScript `String.prototype.trim`. -/
def jsTrim (s : String) : String :=
  String.mk (((s.data.dropWhile isJsWhitespace).reverse.dropWhile isJsWhitespace).reverse)

/-- ASCII lowering of one character; models `toLocaleLowerCase`/`toLowerCase`
on the ASCII file names and extensions this module handles. -/
def asciiLowerChar (c : Char) : Char :=
  match c with
  | 'A' => 'a' | 'B' => 'b' | 'C' => 'c' | 'D' => 'd' | 'E' => 'e' | 'F' => 'f'
  | 'G' => 'g' | 'H' => 'h' | 'I' => 'i' | 'J' => 'j' | 'K' => 'k' | 'L' => 'l'
  | 'M' => 'm' | 'N' => 'n' | 'O' => 'o' | 'P' => 'p' | 'Q' => 'q' | 'R' => 'r'
  | 'S' => 's' | 'T' => 't' | 'U' => 'u' | 'V' => 'v' | 'W' => 'w' | 'X' => 'x'
  | 'Y' => 'y' | 'Z' => 'z'
  | _ => c

/-- Models JavaScript `toLowerCase` (restricted to its ASCII action). -/
def asciiLower (s : String) : String :=
  String.mk (s.data.map asciiLowerChar)

/-- Models Node's `path.basename` on the URI strings this module builds:
the segment after the last `/`. -/
def jsBasename (s : String) : String :=
  String.mk ((s.data.reverse.takeWhile (fun c => c ≠ '/')).reverse)

/-- Helper for `jsExtname`, walking the reversed string: accumulates the
extension characters until the last dot; fails on a slash, at the end, or
when the dot starts the base name (Node returns "" for dotfiles). -/
def extnameRev : List Char → List Char → Option (List Char)
  | [], _ => none
  | c :: cs, acc =>
    if c = '/' then none
    else if c = '.' then
      match cs with
      | [] => none
      | c' :: _ => if c' = '/' then none else some acc
    else extnameRev cs (c :: acc)

/-- Models Node's `path.extname`: the suffix from the last dot of the base
name, including the dot; "" when there is none, when the dot starts the
base name, or when the last dot lies before the last slash. -/
def jsExtname (s : String) : String :=
  match extnameRev s.data.reverse [] with
  | some ext => String.mk ('.' :: ext)
  | none => ""

/-! ### The JSON value model

Models the values produced by the JavaScript builtins `JSON.parse` and
`JSON.stringify(v, null, 2)` used by `getManifestContent` and the change
handler.  The number production is omitted: the playground manifest format
(spec §6) has no numeric field, and the module never produces one.
Duplicate object keys are kept in reading order rather than collapsed;
property access and update consistently use the last occurrence, matching
the value `JSON.parse` would retain. -/

inductive Json where
  | null
  | bool (b : Bool)
  | str (s : String)
  | arr (elements : List Json)
  | obj (fields : List (String × Json))

/-- JavaScript truthiness of a parsed JSON value (`undefined` is handled
at each use site as `Option.none`). -/
def jsTruthy : Json → Bool
  | .null => false
  | .bool b => b
  | .str s => s ≠ ""
  | .arr _ => true
  | .obj _ => true

/-- Models `===` (SameValueZero) between JSON values reachable in this
module: structural on the primitives, `false` between composites, whose
distinct parse nodes are never reference-equal. -/
def Json.primEq : Json → Json → Bool
  | .null, .null => true
  | .bool a, .bool b => a == b
  | .str a, .str b => a == b
  | _, _ => false

/-- Models `Array.prototype.includes` on an array of parsed JSON values. -/
def jsArrIncludes (elems : List Json) (x : Json) : Bool :=
  elems.any (fun e => Json.primEq e x)

/-- Models `String.prototype.includes` (substring search). -/
def jsStrIncludes (hay needle : String) : Bool :=
  2 ≤ (hay.splitOn needle).length

/-- Models `[...new Set(l)]`: first occurrences kept, in order, under
SameValueZero. -/
def dedupAcc (seen : List Json) : List Json → List Json
  | [] => []
  | x :: xs =>
    if jsArrIncludes seen x then dedupAcc seen xs
    else x :: dedupAcc (seen ++ [x]) xs

/-- Spread of a `Set` built from a list, as in
`[...new Set(parsedManifest.scripts)]`. -/
def jsSetDedup (l : List Json) : List Json := dedupAcc [] l

/-- Boolean "no two elements are SameValueZero-equal". -/
def primNodup : List Json → Bool
  | [] => true
  | x :: xs => !jsArrIncludes xs x && primNodup xs

/-- Last value bound to a key among a JSON object's fields (the value
`JSON.parse` retains for a repeated key). -/
def lookupLast : List (String × Json) → String → Option Json
  | [], _ => none
  | (k', v') :: rest, k =>
    match lookupLast rest k with
    | some v => some v
    | none => if k' = k then some v' else none

/-- Replaces the value at the (last) occurrence of a key, appending when
absent: a JavaScript property write keeps the property's position. -/
def setPropList : List (String × Json) → String → Json → List (String × Json)
  | [], k, v => [(k, v)]
  | (k', v') :: rest, k, v =>
    if k' == k && (lookupLast rest k).isNone then (k', v) :: rest
    else (k', v') :: setPropList rest k v

/-- JavaScript runtime errors this module can raise. -/
inductive JsErr where
  | syntaxError
  | typeError
deriving DecidableEq

/-- Models property access `value.key` on a parsed JSON value: a lookup on
an object, `undefined` (`none`) on the other non-null values, and a thrown
`TypeError` on `null`. -/
def jsGetProp : Json → String → Except JsErr (Option Json)
  | .null, _ => .error .typeError
  | .obj fields, k => .ok (lookupLast fields k)
  | _, _ => .ok none

/-- Property update `value.key = v` on an object; other values are
unreachable at its use sites and returned unchanged. -/
def jsSetProp : Json → String → Json → Json
  | .obj fields, k, v => .obj (setPropList fields k v)
  | j, _, _ => j

/-! ### `JSON.stringify(v, null, 2)` -/

/-- Lowercase hexadecimal digit, as `JSON.stringify` emits in `\u00xx`
escapes. -/
def hexDigitChar (n : Nat) : Char :=
  if n < 10 then Char.ofNat (48 + n) else Char.ofNat (87 + n)

/-- QuoteJSONString's escape of one character: named escapes for the
characters that have them, `\u00xx` for the other control characters. -/
def escapeChar (c : Char) : List Char :=
  if c = '"' then ['\\', '"']
  else if c = '\\' then ['\\', '\\']
  else if c = '\x08' then ['\\', 'b']
  else if c = '\x0c' then ['\\', 'f']
  else if c = '\n' then ['\\', 'n']
  else if c = '\r' then ['\\', 'r']
  else if c = '\t' then ['\\', 't']
  else if c.toNat < 32 then
    ['\\', 'u', '0', '0', hexDigitChar (c.toNat / 16), hexDigitChar (c.toNat % 16)]
  else [c]

/-- Escape of a whole string body. -/
def escapeList : List Char → List Char
  | [] => []
  | c :: cs => escapeChar c ++ escapeList cs

mutual

/-- Pretty printing of `JSON.stringify(v, null, 2)` at nesting depth `d`. -/
def printVal : Json → Nat → List Char
  | .null, _ => 'n' :: 'u' :: 'l' :: 'l' :: []
  | .bool true, _ => 't' :: 'r' :: 'u' :: 'e' :: []
  | .bool false, _ => 'f' :: 'a' :: 'l' :: 's' :: 'e' :: []
  | .str s, _ => '"' :: escapeList s.data ++ ['"']
  | .arr [], _ => '[' :: [']']
  | .arr (e :: es), d =>
    '[' :: '\n' :: printItems (e :: es) (d + 1) ++
      '\n' :: List.replicate (2 * d) ' ' ++ [']']
  | .obj [], _ => '\x7b' :: ['\x7d']
  | .obj (f :: fs), d =>
    '\x7b' :: '\n' :: printFields (f :: fs) (d + 1) ++
      '\n' :: List.replicate (2 * d) ' ' ++ ['\x7d']

/-- Array members, one per line at depth `d`, separated by `,\n`. -/
def printItems : List Json → Nat → List Char
  | [], _ => []
  | [e], d => List.replicate (2 * d) ' ' ++ printVal e d
  | e :: e' :: es, d =>
    List.replicate (2 * d) ' ' ++ printVal e d ++
      ',' :: '\n' :: printItems (e' :: es) d

/-- Object members, one per line at depth `d`, separated by `,\n`. -/
def printFields : List (String × Json) → Nat → List Char
  | [], _ => []
  | [(k, v)], d =>
    List.replicate (2 * d) ' ' ++ '"' :: escapeList k.data ++
      '"' :: ':' :: ' ' :: printVal v d
  | (k, v) :: f :: fs, d =>
    List.replicate (2 * d) ' ' ++ '"' :: escapeList k.data ++
      '"' :: ':' :: ' ' :: printVal v d ++ ',' :: '\n' :: printFields (f :: fs) d

end

/-- Models `JSON.stringify(v, null, 2)`. -/
def jsonStringify2 (j : Json) : String :=
  String.mk (printVal j 0)

/-! ### `JSON.parse` -/

/-- Drops leading JSON whitespace. -/
def skipWs : List Char → List Char
  | [] => []
  | c :: cs => if isJsonWs c then skipWs cs else c :: cs

/-- Value of one hexadecimal digit. -/
def parseHexDigit (c : Char) : Option Nat :=
  if '0' ≤ c ∧ c ≤ '9' then some (c.toNat - 48)
  else if 'a' ≤ c ∧ c ≤ 'f' then some (c.toNat - 87)
  else if 'A' ≤ c ∧ c ≤ 'F' then some (c.toNat - 55)
  else none

/-- Prepends a character to a string-parse result. -/
def mapCons (c : Char) : Option (List Char × List Char) → Option (List Char × List Char)
  | some (s, r) => some (c :: s, r)
  | none => none

/-- Body of a JSON string after the opening quote: unescapes up to the
closing quote and returns the remaining input.  Raw control characters are
refused, as in `JSON.parse`; a `\uXXXX` escape becomes the scalar value
(surrogate-pair combination is not modelled; no string this module writes
contains one). -/
def parseStringBody : List Char → Option (List Char × List Char)
  | [] => none
  | c :: rest =>
    if c = '"' then some ([], rest)
    else if c = '\\' then
      match rest with
      | [] => none
      | e :: cs =>
        if e = '"' then mapCons '"' (parseStringBody cs)
        else if e = '\\' then mapCons '\\' (parseStringBody cs)
        else if e = '/' then mapCons '/' (parseStringBody cs)
        else if e = 'b' then mapCons '\x08' (parseStringBody cs)
        else if e = 'f' then mapCons '\x0c' (parseStringBody cs)
        else if e = 'n' then mapCons '\n' (parseStringBody cs)
        else if e = 'r' then mapCons '\r' (parseStringBody cs)
        else if e = 't' then mapCons '\t' (parseStringBody cs)
        else if e = 'u' then
          match cs with
          | h₁ :: h₂ :: h₃ :: h₄ :: cs' =>
            match parseHexDigit h₁, parseHexDigit h₂, parseHexDigit h₃, parseHexDigit h₄ with
            | some a, some b, some c', some d =>
              mapCons (Char.ofNat (((a * 16 + b) * 16 + c') * 16 + d)) (parseStringBody cs')
            | _, _, _, _ => none
          | _ => none
        else none
    else if c.toNat < 32 then none
    else mapCons c (parseStringBody rest)

mutual

/-- Recursive-descent JSON value parser (fueled; any fuel at least the
value's `jsize` suffices, see the round-trip lemmas). -/
def parseVal : Nat → List Char → Option (Json × List Char)
  | 0, _ => none
  | fuel + 1, cs =>
    match skipWs cs with
    | 'n' :: 'u' :: 'l' :: 'l' :: rest => some (.null, rest)
    | 't' :: 'r' :: 'u' :: 'e' :: rest => some (.bool true, rest)
    | 'f' :: 'a' :: 'l' :: 's' :: 'e' :: rest => some (.bool false, rest)
    | '"' :: rest =>
      match parseStringBody rest with
      | some (s, rest') => some (.str (String.mk s), rest')
      | none => none
    | '[' :: rest =>
      if (skipWs rest).headD 'x' = ']' then some (.arr [], (skipWs rest).tail)
      else
        match parseItems fuel rest with
        | some (es, rest') => some (.arr es, rest')
        | none => none
    | '\x7b' :: rest =>
      if (skipWs rest).headD 'x' = '\x7d' then some (.obj [], (skipWs rest).tail)
      else
        match parseFields fuel rest with
        | some (fs, rest') => some (.obj fs, rest')
        | none => none
    | _ => none

/-- One or more comma-separated array members followed by `]`. -/
def parseItems : Nat → List Char → Option (List Json × List Char)
  | 0, _ => none
  | fuel + 1, cs =>
    match parseVal fuel cs with
    | some (v, rest) =>
      match skipWs rest with
      | ',' :: rest' =>
        match parseItems fuel rest' with
        | some (vs, rest₂) => some (v :: vs, rest₂)
        | none => none
      | ']' :: rest' => some ([v], rest')
      | _ => none
    | none => none

/-- One or more comma-separated object members followed by `}`. -/
def parseFields : Nat → List Char → Option (List (String × Json) × List Char)
  | 0, _ => none
  | fuel + 1, cs =>
    match skipWs cs with
    | '"' :: rest =>
      match parseStringBody rest with
      | some (k, rest₁) =>
        match skipWs rest₁ with
        | ':' :: rest₂ =>
          match parseVal fuel rest₂ with
          | some (v, rest₃) =>
            match skipWs rest₃ with
            | ',' :: rest₄ =>
              match parseFields fuel rest₄ with
              | some (fs, rest₅) => some ((String.mk k, v) :: fs, rest₅)
              | none => none
            | '\x7d' :: rest₄ => some ([(String.mk k, v)], rest₄)
            | _ => none
          | none => none
        | _ => none
      | none => none
    | _ => none

end

/-- Models `JSON.parse` (on the JSON subset described at `Json`):
`none` is a thrown `SyntaxError`. -/
def parseJson (s : String) : Option Json :=
  match parseVal (s.data.length + 1) s.data with
  | some (j, rest) => if skipWs rest = [] then some j else none
  | none => none

mutual

/-- Fuel adequate for `parseVal` on a printed value. -/
def jsize : Json → Nat
  | .null | .bool _ | .str _ => 1
  | .arr es => 1 + jsizeItems es
  | .obj fs => 1 + jsizeFields fs

/-- Fuel adequate for `parseItems` on printed members. -/
def jsizeItems : List Json → Nat
  | [] => 0
  | e :: es => 1 + jsize e + jsizeItems es

/-- Fuel adequate for `parseFields` on printed members. -/
def jsizeFields : List (String × Json) → Nat
  | [] => 0
  | (_, v) :: fs => 1 + jsize v + jsizeFields fs

end

example : parseJson "\x7b\"scripts\":[\"lodash\"]\x7d" =
    some (.obj [("scripts", .arr [.str "lodash"])]) := rfl

example : jsonStringify2 (.obj [("scripts", .arr [.str "lodash"])]) =
    "\x7b\n  \"scripts\": [\n    \"lodash\"\n  ]\n\x7d" := rfl

/-! ### Round trip: `parseJson` inverts `jsonStringify2`

These lemmas justify reasoning about a manifest that `getManifestContent`
has rewritten and persisted: parsing the pretty-printed text recovers
exactly the value that was printed. -/

theorem skipWs_ws_lead : ∀ ws cs, (∀ c ∈ ws, isJsonWs c = true) →
    skipWs (ws ++ cs) = skipWs cs
  | [], _, _ => rfl
  | c :: ws, cs, h => by
    have hc : isJsonWs c = true := h c (List.mem_cons_self c ws)
    simp only [List.cons_append, skipWs, hc, if_true]
    exact skipWs_ws_lead ws cs fun c' hc' => h c' (List.mem_cons_of_mem c hc')

theorem skipWs_cons_not_ws {c : Char} (cs : List Char) (h : isJsonWs c = false) :
    skipWs (c :: cs) = c :: cs := by
  simp [skipWs, h]

theorem replicate_space_ws (n : Nat) : ∀ c ∈ List.replicate n ' ', isJsonWs c = true := by
  intro c hc
  rw [List.eq_of_mem_replicate hc]
  decide

theorem parseVal_ws_lead (fuel : Nat) (ws cs : List Char)
    (h : ∀ c ∈ ws, isJsonWs c = true) :
    parseVal fuel (ws ++ cs) = parseVal fuel cs := by
  cases fuel with
  | zero => rfl
  | succ f => simp only [parseVal, skipWs_ws_lead ws cs h]

theorem parseItems_ws_lead (fuel : Nat) (ws cs : List Char)
    (h : ∀ c ∈ ws, isJsonWs c = true) :
    parseItems fuel (ws ++ cs) = parseItems fuel cs := by
  cases fuel with
  | zero => rfl
  | succ f => simp only [parseItems, parseVal_ws_lead f ws cs h]

theorem parseFields_ws_lead (fuel : Nat) (ws cs : List Char)
    (h : ∀ c ∈ ws, isJsonWs c = true) :
    parseFields fuel (ws ++ cs) = parseFields fuel cs := by
  cases fuel with
  | zero => rfl
  | succ f => simp only [parseFields, skipWs_ws_lead ws cs h]

theorem parseHexDigit_hexDigitChar : ∀ n, n < 16 → parseHexDigit (hexDigitChar n) = some n := by
  decide

theorem parseStringBody_escape (s : List Char) :
    ∀ rest, parseStringBody (escapeList s ++ '"' :: rest) = some (s, rest) := by
  induction s with
  | nil =>
    intro rest
    rw [show escapeList [] ++ '"' :: rest = '"' :: rest by simp [escapeList]]
    rw [parseStringBody.eq_def]
    simp
  | cons c cs ih =>
    intro rest
    by_cases h1 : c = '"'
    · subst h1
      rw [show escapeList ('"' :: cs) ++ '"' :: rest =
            '\\' :: '"' :: (escapeList cs ++ '"' :: rest) by simp [escapeList, escapeChar]]
      rw [parseStringBody.eq_def]
      simp [mapCons, ih]
    by_cases h2 : c = '\\'
    · subst h2
      rw [show escapeList ('\\' :: cs) ++ '"' :: rest =
            '\\' :: '\\' :: (escapeList cs ++ '"' :: rest) by simp [escapeList, escapeChar]]
      rw [parseStringBody.eq_def]
      simp [mapCons, ih]
    by_cases h3 : c = '\x08'
    · subst h3
      rw [show escapeList ('\x08' :: cs) ++ '"' :: rest =
            '\\' :: 'b' :: (escapeList cs ++ '"' :: rest) by simp [escapeList, escapeChar]]
      rw [parseStringBody.eq_def]
      simp [mapCons, ih]
    by_cases h4 : c = '\x0c'
    · subst h4
      rw [show escapeList ('\x0c' :: cs) ++ '"' :: rest =
            '\\' :: 'f' :: (escapeList cs ++ '"' :: rest) by simp [escapeList, escapeChar]]
      rw [parseStringBody.eq_def]
      simp [mapCons, ih]
    by_cases h5 : c = '\n'
    · subst h5
      rw [show escapeList ('\n' :: cs) ++ '"' :: rest =
            '\\' :: 'n' :: (escapeList cs ++ '"' :: rest) by simp [escapeList, escapeChar]]
      rw [parseStringBody.eq_def]
      simp [mapCons, ih]
    by_cases h6 : c = '\r'
    · subst h6
      rw [show escapeList ('\r' :: cs) ++ '"' :: rest =
            '\\' :: 'r' :: (escapeList cs ++ '"' :: rest) by simp [escapeList, escapeChar]]
      rw [parseStringBody.eq_def]
      simp [mapCons, ih]
    by_cases h7 : c = '\t'
    · subst h7
      rw [show escapeList ('\t' :: cs) ++ '"' :: rest =
            '\\' :: 't' :: (escapeList cs ++ '"' :: rest) by simp [escapeList, escapeChar]]
      rw [parseStringBody.eq_def]
      simp [mapCons, ih]
    by_cases h8 : c.toNat < 32
    · have h0 : parseHexDigit '0' = some 0 := by decide
      have hd : parseHexDigit (hexDigitChar (c.toNat / 16)) = some (c.toNat / 16) :=
        parseHexDigit_hexDigitChar _ (by omega)
      have hm : parseHexDigit (hexDigitChar (c.toNat % 16)) = some (c.toNat % 16) :=
        parseHexDigit_hexDigitChar _ (by omega)
      rw [show escapeList (c :: cs) ++ '"' :: rest =
            '\\' :: 'u' :: '0' :: '0' :: hexDigitChar (c.toNat / 16) ::
              hexDigitChar (c.toNat % 16) :: (escapeList cs ++ '"' :: rest) by
          simp [escapeList, escapeChar, h1, h2, h3, h4, h5, h6, h7, h8]]
      rw [parseStringBody.eq_def]
      simp [mapCons, ih, h0, hd, hm]
      have hval : c.toNat / 16 * 16 + c.toNat % 16 = c.toNat := by omega
      rw [hval, Char.ofNat_toNat]
    · rw [show escapeList (c :: cs) ++ '"' :: rest = c :: (escapeList cs ++ '"' :: rest) by
          simp [escapeList, escapeChar, h1, h2, h3, h4, h5, h6, h7, h8]]
      rw [parseStringBody.eq_def]
      simp [mapCons, ih, h1, h2, h8]

theorem printVal_head (j : Json) (d : Nat) :
    ∃ c cs, printVal j d = c :: cs ∧ isJsonWs c = false ∧ c ≠ ']' ∧ c ≠ '\x7d' := by
  have ok : ∀ c : Char, c ∈ ['n', 'f', 't', '"', '[', '\x7b'] →
      isJsonWs c = false ∧ c ≠ ']' ∧ c ≠ '\x7d' := by decide
  cases j with
  | null => exact ⟨'n', _, rfl, ok 'n' (by decide)⟩
  | bool b =>
    cases b with
    | false => exact ⟨'f', _, rfl, ok 'f' (by decide)⟩
    | true => exact ⟨'t', _, rfl, ok 't' (by decide)⟩
  | str s => exact ⟨'"', _, rfl, ok '"' (by decide)⟩
  | arr es =>
    cases es with
    | nil => exact ⟨'[', _, rfl, ok '[' (by decide)⟩
    | cons e es => exact ⟨'[', _, rfl, ok '[' (by decide)⟩
  | obj fs =>
    cases fs with
    | nil => exact ⟨'\x7b', _, rfl, ok '\x7b' (by decide)⟩
    | cons f fs => exact ⟨'\x7b', _, rfl, ok '\x7b' (by decide)⟩

theorem parseVal_quote (k : Nat) (X : List Char) :
    parseVal (k + 1) ('"' :: X) =
      match parseStringBody X with
      | some (s, rest') => some (.str (String.mk s), rest')
      | none => none := rfl

theorem parseVal_lbrack (k : Nat) (X : List Char) :
    parseVal (k + 1) ('[' :: X) =
      (if (skipWs X).headD 'x' = ']' then some (.arr [], (skipWs X).tail)
       else
        match parseItems k X with
        | some (es, rest') => some (.arr es, rest')
        | none => none) := rfl

theorem parseVal_lbrace (k : Nat) (X : List Char) :
    parseVal (k + 1) ('\x7b' :: X) =
      (if (skipWs X).headD 'x' = '\x7d' then some (.obj [], (skipWs X).tail)
       else
        match parseFields k X with
        | some (fs, rest') => some (.obj fs, rest')
        | none => none) := rfl

theorem printItems_cons_shape (e : Json) (es : List Json) (d : Nat) :
    ∃ tail, printItems (e :: es) d =
      List.replicate (2 * d) ' ' ++ printVal e d ++ tail := by
  cases es with
  | nil => exact ⟨[], by simp [printItems]⟩
  | cons e' es => exact ⟨',' :: '\n' :: printItems (e' :: es) d, by simp [printItems]⟩

theorem parseVal_null (k : Nat) (X : List Char) :
    parseVal (k + 1) ('n' :: 'u' :: 'l' :: 'l' :: X) = some (.null, X) := rfl

theorem parseVal_true (k : Nat) (X : List Char) :
    parseVal (k + 1) ('t' :: 'r' :: 'u' :: 'e' :: X) = some (.bool true, X) := rfl

theorem parseVal_false (k : Nat) (X : List Char) :
    parseVal (k + 1) ('f' :: 'a' :: 'l' :: 's' :: 'e' :: X) = some (.bool false, X) := rfl

theorem parseItems_succ (k : Nat) (X : List Char) :
    parseItems (k + 1) X =
      match parseVal k X with
      | some (v, rest) =>
        match skipWs rest with
        | ',' :: rest' =>
          match parseItems k rest' with
          | some (vs, rest₂) => some (v :: vs, rest₂)
          | none => none
        | ']' :: rest' => some ([v], rest')
        | _ => none
      | none => none := rfl

theorem parseFields_succ_quote (k : Nat) (Y : List Char) :
    parseFields (k + 1) ('"' :: Y) =
      match parseStringBody Y with
      | some (kk, rest₁) =>
        match skipWs rest₁ with
        | ':' :: rest₂ =>
          match parseVal k rest₂ with
          | some (v, rest₃) =>
            match skipWs rest₃ with
            | ',' :: rest₄ =>
              match parseFields k rest₄ with
              | some (fs, rest₅) => some ((String.mk kk, v) :: fs, rest₅)
              | none => none
            | '\x7d' :: rest₄ => some ([(String.mk kk, v)], rest₄)
            | _ => none
          | none => none
        | _ => none
      | none => none := rfl

theorem printFields_cons_shape (kk : String) (v : Json) (fs : List (String × Json)) (d : Nat) :
    ∃ tail, printFields ((kk, v) :: fs) d =
      List.replicate (2 * d) ' ' ++
        ('"' :: (escapeList kk.data ++ ('"' :: ':' :: ' ' :: (printVal v d ++ tail)))) := by
  cases fs with
  | nil => exact ⟨[], by simp [printFields]⟩
  | cons f fs => exact ⟨',' :: '\n' :: printFields (f :: fs) d, by simp [printFields]⟩

theorem skipWs_items_head (e : Json) (es : List Json) (d : Nat) (suf : List Char) :
    ∃ c X, skipWs ('\n' :: (printItems (e :: es) d ++ suf)) = c :: X ∧
      isJsonWs c = false ∧ c ≠ ']' ∧ c ≠ '\x7d' := by
  obtain ⟨tail, htail⟩ := printItems_cons_shape e es d
  obtain ⟨c, cs', hpc, hws, h1, h2⟩ := printVal_head e d
  refine ⟨c, cs' ++ (tail ++ suf), ?_, hws, h1, h2⟩
  rw [htail]
  have hassoc : '\n' :: ((List.replicate (2 * d) ' ' ++ printVal e d ++ tail) ++ suf) =
      ('\n' :: List.replicate (2 * d) ' ') ++ (printVal e d ++ (tail ++ suf)) := by
    simp
  rw [hassoc, skipWs_ws_lead _ _ ?hws1, hpc]
  case hws1 =>
    intro x hx
    rcases List.mem_cons.mp hx with h | h
    · subst h; decide
    · exact replicate_space_ws _ x h
  simp [skipWs_cons_not_ws _ hws]

theorem skipWs_fields_head (kk : String) (v : Json) (fs : List (String × Json)) (d : Nat)
    (suf : List Char) :
    ∃ X, skipWs ('\n' :: (printFields ((kk, v) :: fs) d ++ suf)) = '"' :: X := by
  obtain ⟨tail, htail⟩ := printFields_cons_shape kk v fs d
  refine ⟨escapeList kk.data ++ ('"' :: ':' :: ' ' :: (printVal v d ++ tail)) ++ suf, ?_⟩
  rw [htail]
  have hassoc : '\n' :: ((List.replicate (2 * d) ' ' ++
      ('"' :: (escapeList kk.data ++ ('"' :: ':' :: ' ' :: (printVal v d ++ tail))))) ++ suf) =
      ('\n' :: List.replicate (2 * d) ' ') ++
        ('"' :: ((escapeList kk.data ++ ('"' :: ':' :: ' ' :: (printVal v d ++ tail))) ++ suf)) := by
    simp
  rw [hassoc, skipWs_ws_lead _ _ ?hws2, skipWs_cons_not_ws _ (by decide)]
  case hws2 =>
    intro x hx
    rcases List.mem_cons.mp hx with h | h
    · subst h; decide
    · exact replicate_space_ws _ x h

theorem skipWs_close (d' : Nat) (b : Char) (rest : List Char) (hb : isJsonWs b = false) :
    skipWs ('\n' :: (List.replicate (2 * d') ' ' ++ (b :: rest))) = b :: rest := by
  have hassoc : '\n' :: (List.replicate (2 * d') ' ' ++ (b :: rest)) =
      ('\n' :: List.replicate (2 * d') ' ') ++ (b :: rest) := by simp
  rw [hassoc, skipWs_ws_lead _ _ ?hws3, skipWs_cons_not_ws _ hb]
  case hws3 =>
    intro x hx
    rcases List.mem_cons.mp hx with h | h
    · subst h; decide
    · exact replicate_space_ws _ x h


theorem printVal_parseVal :
    (∀ (j : Json) (d : Nat), ∀ fuel rest, jsize j ≤ fuel →
        parseVal fuel (printVal j d ++ rest) = some (j, rest)) ∧
    (∀ (fs : List (String × Json)) (d : Nat), ∀ fuel d' rest,
        jsizeFields fs ≤ fuel → fs ≠ [] →
        parseFields fuel
            (printFields fs d ++
              ('\n' :: (List.replicate (2 * d') ' ' ++ ('\x7d' :: rest)))) =
          some (fs, rest)) ∧
    (∀ (es : List Json) (d : Nat), ∀ fuel d' rest,
        jsizeItems es ≤ fuel → es ≠ [] →
        parseItems fuel
            (printItems es d ++
              ('\n' :: (List.replicate (2 * d') ' ' ++ (']' :: rest)))) =
          some (es, rest)) := by
  refine printVal.mutual_induct _ _ _ ?hnull ?htrue ?hfalse ?hstr ?harrnil ?harrcons
    ?hobjnil ?hobjcons ?hitnil ?hitone ?hitcons ?hfnil ?hfone ?hfcons
  case hnull =>
    intro d fuel rest h
    cases fuel with
    | zero => simp only [jsize] at h; omega
    | succ k =>
      rw [show printVal .null d ++ rest = 'n' :: 'u' :: 'l' :: 'l' :: rest by
        simp [printVal]]
      exact parseVal_null k rest
  case htrue =>
    intro d fuel rest h
    cases fuel with
    | zero => simp only [jsize] at h; omega
    | succ k =>
      rw [show printVal (.bool true) d ++ rest = 't' :: 'r' :: 'u' :: 'e' :: rest by
        simp [printVal]]
      exact parseVal_true k rest
  case hfalse =>
    intro d fuel rest h
    cases fuel with
    | zero => simp only [jsize] at h; omega
    | succ k =>
      rw [show printVal (.bool false) d ++ rest = 'f' :: 'a' :: 'l' :: 's' :: 'e' :: rest by
        simp [printVal]]
      exact parseVal_false k rest
  case hstr =>
    intro s d fuel rest h
    cases fuel with
    | zero => simp only [jsize] at h; omega
    | succ k =>
      rw [show printVal (.str s) d ++ rest = '"' :: (escapeList s.data ++ '"' :: rest) by
        simp [printVal]]
      rw [parseVal_quote, parseStringBody_escape]
  case harrnil =>
    intro d fuel rest h
    cases fuel with
    | zero => simp only [jsize] at h; omega
    | succ k =>
      rw [show printVal (.arr []) d ++ rest = '[' :: ']' :: rest by simp [printVal]]
      rw [parseVal_lbrack]
      rfl
  case harrcons =>
    intro e es d IH fuel rest h
    cases fuel with
    | zero => simp only [jsize] at h; omega
    | succ k =>
      rw [show printVal (.arr (e :: es)) d ++ rest =
          '[' :: ('\n' :: (printItems (e :: es) (d + 1) ++
            ('\n' :: (List.replicate (2 * d) ' ' ++ (']' :: rest))))) by simp [printVal]]
      rw [parseVal_lbrack]
      obtain ⟨c, X, hsw, hws, hrb, _⟩ := skipWs_items_head e es (d + 1)
        ('\n' :: (List.replicate (2 * d) ' ' ++ (']' :: rest)))
      rw [hsw, if_neg (by simpa using hrb)]
      have hpi : parseItems k ('\n' :: (printItems (e :: es) (d + 1) ++
          ('\n' :: (List.replicate (2 * d) ' ' ++ (']' :: rest))))) =
          parseItems k (printItems (e :: es) (d + 1) ++
            ('\n' :: (List.replicate (2 * d) ' ' ++ (']' :: rest)))) :=
        parseItems_ws_lead k ['\n'] _ (by intro x hx; simp at hx; subst hx; decide)
      rw [hpi]
      have hsz : jsizeItems (e :: es) ≤ k := by simp only [jsize] at h; omega
      rw [IH k d rest hsz (by simp)]
  case hobjnil =>
    intro d fuel rest h
    cases fuel with
    | zero => simp only [jsize] at h; omega
    | succ k =>
      rw [show printVal (.obj []) d ++ rest = '\x7b' :: '\x7d' :: rest by simp [printVal]]
      rw [parseVal_lbrace]
      rfl
  case hobjcons =>
    intro f fs d IH fuel rest h
    obtain ⟨kk, v⟩ := f
    cases fuel with
    | zero => simp only [jsize] at h; omega
    | succ k =>
      rw [show printVal (.obj ((kk, v) :: fs)) d ++ rest =
          '\x7b' :: ('\n' :: (printFields ((kk, v) :: fs) (d + 1) ++
            ('\n' :: (List.replicate (2 * d) ' ' ++ ('\x7d' :: rest))))) by simp [printVal]]
      rw [parseVal_lbrace]
      obtain ⟨X, hsw⟩ := skipWs_fields_head kk v fs (d + 1)
        ('\n' :: (List.replicate (2 * d) ' ' ++ ('\x7d' :: rest)))
      rw [hsw, if_neg (by simp)]
      have hpf : parseFields k ('\n' :: (printFields ((kk, v) :: fs) (d + 1) ++
          ('\n' :: (List.replicate (2 * d) ' ' ++ ('\x7d' :: rest))))) =
          parseFields k (printFields ((kk, v) :: fs) (d + 1) ++
            ('\n' :: (List.replicate (2 * d) ' ' ++ ('\x7d' :: rest)))) :=
        parseFields_ws_lead k ['\n'] _ (by intro x hx; simp at hx; subst hx; decide)
      rw [hpf]
      have hsz : jsizeFields ((kk, v) :: fs) ≤ k := by simp only [jsize] at h; omega
      rw [IH k d rest hsz (by simp)]
  case hitnil =>
    intro d fuel d' rest h hne
    exact absurd rfl hne
  case hitone =>
    intro e d IH1 fuel d' rest h hne
    cases fuel with
    | zero => simp only [jsizeItems] at h; omega
    | succ k =>
      rw [show printItems [e] d ++
            ('\n' :: (List.replicate (2 * d') ' ' ++ (']' :: rest))) =
          List.replicate (2 * d) ' ' ++
            (printVal e d ++ ('\n' :: (List.replicate (2 * d') ' ' ++ (']' :: rest)))) by
        simp [printItems]]
      rw [parseItems_succ]
      rw [parseVal_ws_lead k _ _ (replicate_space_ws _)]
      have hsz : jsize e ≤ k := by simp only [jsizeItems] at h; omega
      rw [IH1 k _ hsz]
      simp [skipWs_close d' ']' rest (by decide)]
  case hitcons =>
    intro e e' es d IH1 IH3 fuel d' rest h hne
    cases fuel with
    | zero => simp only [jsizeItems] at h; omega
    | succ k =>
      rw [show printItems (e :: e' :: es) d ++
            ('\n' :: (List.replicate (2 * d') ' ' ++ (']' :: rest))) =
          List.replicate (2 * d) ' ' ++
            (printVal e d ++ (',' :: ('\n' :: (printItems (e' :: es) d ++
              ('\n' :: (List.replicate (2 * d') ' ' ++ (']' :: rest))))))) by
        simp [printItems]]
      rw [parseItems_succ]
      rw [parseVal_ws_lead k _ _ (replicate_space_ws _)]
      have hsz1 : jsize e ≤ k := by simp only [jsizeItems] at h; omega
      rw [IH1 k _ hsz1]
      have hpi : parseItems k ('\n' :: (printItems (e' :: es) d ++
          ('\n' :: (List.replicate (2 * d') ' ' ++ (']' :: rest))))) =
          parseItems k (printItems (e' :: es) d ++
            ('\n' :: (List.replicate (2 * d') ' ' ++ (']' :: rest)))) :=
        parseItems_ws_lead k ['\n'] _ (by intro x hx; simp at hx; subst hx; decide)
      have hsz3 : jsizeItems (e' :: es) ≤ k := by
        simp only [jsizeItems] at h ⊢; omega
      simp [skipWs_cons_not_ws _ (show isJsonWs ',' = false by decide), hpi,
        IH3 k d' rest hsz3 (by simp)]
  case hfnil =>
    intro d fuel d' rest h hne
    exact absurd rfl hne
  case hfone =>
    intro kk v d IH1 fuel d' rest h hne
    cases fuel with
    | zero => simp only [jsizeFields] at h; omega
    | succ k =>
      rw [show printFields [(kk, v)] d ++
            ('\n' :: (List.replicate (2 * d') ' ' ++ ('\x7d' :: rest))) =
          List.replicate (2 * d) ' ' ++
            ('"' :: (escapeList kk.data ++ ('"' :: (':' :: (' ' ::
              (printVal v d ++ ('\n' :: (List.replicate (2 * d') ' ' ++
                ('\x7d' :: rest))))))))) by simp [printFields]]
      rw [parseFields_ws_lead (k + 1) _ _ (replicate_space_ws _)]
      rw [parseFields_succ_quote]
      rw [show escapeList kk.data ++ ('"' :: (':' :: (' ' ::
            (printVal v d ++ ('\n' :: (List.replicate (2 * d') ' ' ++
              ('\x7d' :: rest))))))) =
          escapeList kk.data ++ '"' :: (':' :: (' ' ::
            (printVal v d ++ ('\n' :: (List.replicate (2 * d') ' ' ++
              ('\x7d' :: rest)))))) from rfl]
      rw [parseStringBody_escape kk.data]
      have hpv : parseVal k (' ' :: (printVal v d ++ ('\n' ::
          (List.replicate (2 * d') ' ' ++ ('\x7d' :: rest))))) =
          parseVal k (printVal v d ++ ('\n' ::
            (List.replicate (2 * d') ' ' ++ ('\x7d' :: rest)))) :=
        parseVal_ws_lead k [' '] _ (by intro x hx; simp at hx; subst hx; decide)
      have hsz : jsize v ≤ k := by simp only [jsizeFields] at h; omega
      have hmk : String.mk kk.data = kk := rfl
      simp [skipWs_cons_not_ws _ (show isJsonWs ':' = false by decide), hpv,
        IH1 k _ hsz, skipWs_close d' '\x7d' rest (by decide), hmk]
  case hfcons =>
    intro kk v f fs d IH1 IH2 fuel d' rest h hne
    cases fuel with
    | zero => simp only [jsizeFields] at h; omega
    | succ k =>
      rw [show printFields ((kk, v) :: f :: fs) d ++
            ('\n' :: (List.replicate (2 * d') ' ' ++ ('\x7d' :: rest))) =
          List.replicate (2 * d) ' ' ++
            ('"' :: (escapeList kk.data ++ ('"' :: (':' :: (' ' ::
              (printVal v d ++ (',' :: ('\n' :: (printFields (f :: fs) d ++
                ('\n' :: (List.replicate (2 * d') ' ' ++
                  ('\x7d' :: rest)))))))))))) by simp [printFields]]
      rw [parseFields_ws_lead (k + 1) _ _ (replicate_space_ws _)]
      rw [parseFields_succ_quote]
      rw [show escapeList kk.data ++ ('"' :: (':' :: (' ' ::
            (printVal v d ++ (',' :: ('\n' :: (printFields (f :: fs) d ++
              ('\n' :: (List.replicate (2 * d') ' ' ++ ('\x7d' :: rest)))))))))) =
          escapeList kk.data ++ '"' :: (':' :: (' ' ::
            (printVal v d ++ (',' :: ('\n' :: (printFields (f :: fs) d ++
              ('\n' :: (List.replicate (2 * d') ' ' ++
                ('\x7d' :: rest))))))))) from rfl]
      rw [parseStringBody_escape kk.data]
      have hpv : parseVal k (' ' :: (printVal v d ++ (',' :: ('\n' ::
          (printFields (f :: fs) d ++ ('\n' :: (List.replicate (2 * d') ' ' ++
            ('\x7d' :: rest)))))))) =
          parseVal k (printVal v d ++ (',' :: ('\n' ::
            (printFields (f :: fs) d ++ ('\n' :: (List.replicate (2 * d') ' ' ++
              ('\x7d' :: rest))))))) :=
        parseVal_ws_lead k [' '] _ (by intro x hx; simp at hx; subst hx; decide)
      have hpf : parseFields k ('\n' :: (printFields (f :: fs) d ++
          ('\n' :: (List.replicate (2 * d') ' ' ++ ('\x7d' :: rest))))) =
          parseFields k (printFields (f :: fs) d ++
            ('\n' :: (List.replicate (2 * d') ' ' ++ ('\x7d' :: rest)))) :=
        parseFields_ws_lead k ['\n'] _ (by intro x hx; simp at hx; subst hx; decide)
      have hsz1 : jsize v ≤ k := by simp only [jsizeFields] at h; omega
      have hsz2 : jsizeFields (f :: fs) ≤ k := by
        simp only [jsizeFields] at h ⊢; omega
      have hmk : String.mk kk.data = kk := rfl
      simp [skipWs_cons_not_ws _ (show isJsonWs ':' = false by decide), hpv,
        IH1 k _ hsz1,
        skipWs_cons_not_ws _ (show isJsonWs ',' = false by decide), hpf,
        IH2 k d' rest hsz2 (by simp), hmk]

theorem jsize_le_len :
    (∀ (j : Json) (d : Nat), jsize j + 1 ≤ (printVal j d).length) ∧
    (∀ (fs : List (String × Json)) (d : Nat), jsizeFields fs ≤ (printFields fs d).length) ∧
    (∀ (es : List Json) (d : Nat), jsizeItems es ≤ (printItems es d).length) := by
  refine printVal.mutual_induct _ _ _ ?_ ?_ ?_ ?_ ?_ ?_ ?_ ?_ ?_ ?_ ?_ ?_ ?_ ?_ <;>
    intros <;>
    simp_all [printVal, printItems, printFields, jsize, jsizeItems, jsizeFields] <;>
    omega

/-- Parsing a manifest pretty-printed by `jsonStringify2` recovers exactly
the printed value: the write-back of `getManifestContent` round-trips. -/
theorem parseJson_stringify2 (j : Json) : parseJson (jsonStringify2 j) = some j := by
  have h1 : parseVal ((printVal j 0).length + 1) (printVal j 0 ++ []) = some (j, []) :=
    printVal_parseVal.1 j 0 _ [] (by have := jsize_le_len.1 j 0; omega)
  have h2 : parseVal ((printVal j 0).length + 1) (printVal j 0) = some (j, []) := by
    simpa using h1
  show (match parseVal ((printVal j 0).length + 1) (printVal j 0) with
        | some (jj, rest) => if skipWs rest = [] then some jj else none
        | none => none) = some j
  rw [h2]
  rfl

/-! ### Content bundles and documents -/

/-- Modelled from the spec: `PLAYGROUND_FILE` is imported from
`../constants`, which is not among the repository's files; spec §8 names
the manifest file `playground.json`. -/
def PLAYGROUND_FILE : String := "playground.json"

/-- Modelled from the spec: `FS_SCHEME` from `../constants`, the URI scheme
of the gist file system; its exact value bears on no claim. -/
def FS_SCHEME : String := "gist"

/-- One file of a gist as read from the store; a file whose content the
store has not populated is modelled with the empty string. -/
structure GistFile where
  content : String

/-- A content bundle: `files` models the JavaScript object `gist.files`,
an insertion-ordered mapping with unique keys. -/
structure Gist where
  id : String
  files : List (String × GistFile)

/-- Object property read `gist.files[name]`. -/
def Gist.getFile (g : Gist) (name : String) : Option GistFile :=
  (g.files.find? (fun p => p.1 == name)).map Prod.snd

/-- `Object.keys(gist.files)`, in insertion order. -/
def Gist.fileNames (g : Gist) : List String := g.files.map Prod.fst

/-- Helper for `Gist.setFile`: replace at an existing key (keeping its
position) or append. -/
def setFileList : List (String × GistFile) → String → GistFile → List (String × GistFile)
  | [], n, f => [(n, f)]
  | (n', f') :: rest, n, f =>
    if n' == n then (n', f) :: rest else (n', f') :: setFileList rest n f

/-- Object property write `gist.files[name] = file`, also reached through
the store write-back of a manifest rewrite. -/
def Gist.setFile (g : Gist) (name : String) (file : GistFile) : Gist :=
  ⟨g.id, setFileList g.files name file⟩

/-- `delete gist.files[name]`. -/
def Gist.removeFile (g : Gist) (name : String) : Gist :=
  ⟨g.id, g.files.filter (fun p => p.1 != name)⟩

/-- An open text document of the host editor: the two URI components this
module reads, and `getText()`. -/
structure TextDocument where
  uriAuthority : String
  fileName : String
  text : String

/-- `document.uri.toString()` for the gist file-system URIs built by
`fileNameToUri` (scheme://gistId/fileName). -/
def uriToString (d : TextDocument) : String :=
  FS_SCHEME ++ "://" ++ d.uriAuthority ++ "/" ++ d.fileName

/-! ### Language tables (lines 61-105) -/

def MARKUP_EXTENSIONS : List String := [".html", ".pug"]

def STYLESHEET_EXTENSIONS : List String := [".css", ".less", ".sass", ".scss"]

def REACT_EXTENSIONS : List String := [".babel", ".jsx", ".tsx"]

def MODULE_EXTENSIONS : List String := [".mjs"]

def TYPESCRIPT_EXTENSIONS : List String := [".ts"] ++ REACT_EXTENSIONS

def SCRIPT_EXTENSIONS : List String := [".js"] ++ MODULE_EXTENSIONS ++ TYPESCRIPT_EXTENSIONS

def MARKUP_BASE_NAME : String := "index"

def SCRIPT_BASE_NAME : String := "script"

def STYLESHEET_BASE_NAME : String := "style"

inductive PlaygroundFileType where
  | markup
  | script
  | stylesheet
  | manifest
deriving DecidableEq

/-! ### Manifest resolution (lines 122-160) -/

/-- Models `isReactFile` (122-124): the file's extension (not lower-cased)
is a React extension. -/
def isReactFile (fileName : String) : Bool :=
  REACT_EXTENSIONS.contains (jsExtname fileName)

def REACT_SCRIPTS : List String := ["react", "react-dom"]

/-- Models `includesReactFiles` (128-130). -/
def includesReactFiles (g : Gist) : Bool :=
  g.fileNames.any isReactFile

/-- Models `includesReactScripts` (132-134) applied to
`parsedManifest.scripts` with JavaScript dynamics: `undefined` (`none`),
`null` or a value without an `includes` method throws a `TypeError`; an
array checks membership, a string checks substrings. -/
def includesReactScripts : Option Json → Except JsErr Bool
  | none => .error .typeError
  | some (.arr elems) => .ok (REACT_SCRIPTS.all (fun s => jsArrIncludes elems (.str s)))
  | some (.str hay) => .ok (REACT_SCRIPTS.all (fun s => jsStrIncludes hay s))
  | some _ => .error .typeError

/-- Result of manifest resolution: the returned content, the bundle after
any write-back, and the contents persisted (in order). -/
structure ManifestResult where
  content : String
  gist : Gist
  writes : List String

/-- Models `getManifestContent` (136-160), with the
`vscode.workspace.fs.writeFile` side effect reified in `writes` and the
post-write bundle in `gist`.  `Except.error` is a JavaScript exception
escaping the function: `JSON.parse` of a malformed manifest, property
access on `null`, `includes` on a value without that method, or `push` on
a non-array `scripts`. -/
def getManifestContent (g : Gist) : Except JsErr ManifestResult :=
  match g.getFile PLAYGROUND_FILE with
  | none => .ok ⟨"", g, []⟩
  | some file =>
    if includesReactFiles g then
      match parseJson file.content with
      | none => .error .syntaxError
      | some parsedManifest =>
        match jsGetProp parsedManifest "scripts" with
        | .error e => .error e
        | .ok scripts =>
          match includesReactScripts scripts with
          | .error e => .error e
          | .ok true => .ok ⟨file.content, g, []⟩
          | .ok false =>
            match scripts with
            | some (.arr elems) =>
              let newScripts := jsSetDedup (elems ++ [.str "react", .str "react-dom"])
              let parsed' := jsSetProp parsedManifest "scripts" (.arr newScripts)
              let content := jsonStringify2 parsed'
              .ok ⟨content, g.setFile PLAYGROUND_FILE ⟨content⟩, [content]⟩
            | _ => .error .typeError
    else .ok ⟨file.content, g, []⟩

/-! ### Transpiler adapters (lines 212-308)

The external engines (`typescript.transpile`, `pug.render`,
`sass.renderSync`, `less.render`) are parameters; an engine returning
`none` models a thrown compile error, which each adapter catches and
surfaces as a `null` result. -/

structure CompilerOptions where
  experimentalDecorators : Bool
  target : String
  jsx : Bool

/-- Models the truthy chain
`manifest && manifest.scripts && manifest.scripts.includes("react")`
of `getScriptContent` (223-224). -/
def jsIncludesReactScript : Option Json → Except JsErr Bool
  | none => .ok false
  | some m =>
    if !jsTruthy m then .ok false
    else
      match m with
      | .obj fields =>
        match lookupLast fields "scripts" with
        | none => .ok false
        | some v =>
          if !jsTruthy v then .ok false
          else
            match v with
            | .arr elems => .ok (jsArrIncludes elems (.str "react"))
            | .str hay => .ok (jsStrIncludes hay "react")
            | _ => .error .typeError
      | _ => .ok false

/-- Models `getScriptContent` (212-246).  `.ok none` is the `null` result
of a caught transpile error; `.error` is the uncaught `TypeError` of the
`includes` call on an unsupported `scripts` value. -/
def getScriptContent (tsTranspile : String → CompilerOptions → Option String)
    (document : TextDocument) (manifest : Option Json) :
    Except JsErr (Option String) :=
  let content := document.text
  if jsTrim content = "" then .ok (some content)
  else
    let extension := asciiLower (jsExtname (uriToString document))
    do
      let includesJsx ← jsIncludesReactScript manifest
      if TYPESCRIPT_EXTENSIONS.contains extension || includesJsx then
        .ok (tsTranspile content
          ⟨true, "ES2018", includesJsx || REACT_EXTENSIONS.contains extension⟩)
      else
        .ok (some content)

/-- Models `getMarkupContent` (248-268). -/
def getMarkupContent (pugRender : String → Option String) (document : TextDocument) :
    Option String :=
  let content := document.text
  if jsTrim content = "" then some content
  else
    let extension := asciiLower (jsExtname (uriToString document))
    if extension = ".pug" then pugRender content
    else some content

/-- Models `getStylesheetContent` (270-308); the sass engine takes the
indented-syntax flag. -/
def getStylesheetContent (sassRender : String → Bool → Option String)
    (lessRender : String → Option String) (document : TextDocument) :
    Option String :=
  let content := document.text
  if jsTrim content = "" then some content
  else
    let extension := asciiLower (jsExtname (uriToString document))
    if extension = ".scss" || extension = ".sass" then
      sassRender content (extension = ".sass")
    else if extension = ".less" then lessRender content
    else some content

/-! ### Role resolution (lines 310-317, 385-443) -/

/-- Extension set per role; the source's `switch` sends `stylesheet` and
every other value (its `default:`) to the stylesheet table. -/
def roleExtensions : PlaygroundFileType → List String
  | .markup => MARKUP_EXTENSIONS
  | .script => SCRIPT_EXTENSIONS
  | _ => STYLESHEET_EXTENSIONS

def roleBaseName : PlaygroundFileType → String
  | .markup => MARKUP_BASE_NAME
  | .script => SCRIPT_BASE_NAME
  | _ => STYLESHEET_BASE_NAME

/-- The `fileCandidates` array: canonical base name + each extension. -/
def roleCandidates (fileType : PlaygroundFileType) : List String :=
  (roleExtensions fileType).map (fun extension => roleBaseName fileType ++ extension)

/-- Models `getGistFileOfType` (385-409): `Object.keys(gist.files).find`,
the first file in the bundle's own order matching any candidate. -/
def getGistFileOfType (g : Gist) (fileType : PlaygroundFileType) : Option String :=
  g.fileNames.find? (fun file => (roleCandidates fileType).contains file)

/-- Models `isPlaygroundDocument` (411-443). -/
def isPlaygroundDocument (g : Gist) (document : TextDocument)
    (fileType : PlaygroundFileType) : Bool :=
  if g.id != document.uriAuthority then false
  else (roleCandidates fileType).contains (jsBasename (uriToString document))

/-- Models `isPlaygroundManifestFile` (310-317): base name of the
lower-cased URI string compared with the manifest file name. -/
def isPlaygroundManifestFile (g : Gist) (document : TextDocument) : Bool :=
  if g.id != document.uriAuthority then false
  else jsBasename (asciiLower (uriToString document)) == PLAYGROUND_FILE

/-! ### Layout planning (lines 319-366, 588-617) -/

/-- One pane group of a `vscode.setEditorLayout` argument; absent object
fields are `none` (a bare `{}` literal is a leaf). -/
inductive LayoutGroup where
  | mk (orientation : Option Nat) (groups : Option (List LayoutGroup)) (size : Option ℚ)

/-- The `{}` leaf pane. -/
def leafGroup : LayoutGroup := .mk none none none

/-- Top-level editor layout: orientation 0 = horizontal, 1 = vertical. -/
structure EditorLayout where
  orientation : Nat
  groups : List LayoutGroup

namespace EditorLayouts

def splitOne : EditorLayout := ⟨0, [leafGroup, leafGroup]⟩

def splitTwo : EditorLayout :=
  ⟨0, [.mk (some 1) (some [leafGroup, leafGroup]) (some (1 / 2)),
       .mk none (some [leafGroup]) (some (1 / 2))]⟩

def splitThree : EditorLayout :=
  ⟨0, [.mk (some 1) (some [leafGroup, leafGroup, leafGroup]) (some (1 / 2)),
       .mk none (some [leafGroup]) (some (1 / 2))]⟩

def grid : EditorLayout :=
  ⟨0, [.mk (some 1) (some [leafGroup, leafGroup]) (some (1 / 2)),
       .mk (some 1) (some [leafGroup, leafGroup]) (some (1 / 2))]⟩

end EditorLayouts

/-- `===` comparison of the (dynamically typed) `playgroundLayout` value
against one of the `PlaygroundLayout` enum strings. -/
def isLayoutStr (playgroundLayout : Json) (s : String) : Bool :=
  match playgroundLayout with
  | .str s' => s' == s
  | _ => false

/-- Models `manifest.layout || config.get("playgrounds.layout")` (588);
the `.layout` access throws on a `null` manifest. -/
def playgroundLayoutOf (manifest : Json) (cfgLayout : String) : Except JsErr Json :=
  match jsGetProp manifest "layout" with
  | .error e => .error e
  | .ok (some v) => if jsTruthy v then .ok v else .ok (.str cfgLayout)
  | .ok none => .ok (.str cfgLayout)

/-- Models the editor-layout selection (591-617): base layout from the
number of included files (grid only by preference at three files), then
the splitRight group reversal or the splitTop orientation override. -/
def selectEditorLayout (includedFiles : Nat) (playgroundLayout : Json) : EditorLayout :=
  let base :=
    if includedFiles = 3 then
      if isLayoutStr playgroundLayout "grid" then EditorLayouts.grid
      else EditorLayouts.splitThree
    else if includedFiles = 2 then EditorLayouts.splitTwo
    else EditorLayouts.splitOne
  if isLayoutStr playgroundLayout "splitRight" then
    ⟨base.orientation, base.groups.reverse⟩
  else if isLayoutStr playgroundLayout "splitTop" then
    ⟨1, base.groups⟩
  else base

/-- Models the view-column assignment (602-611):
`(currentViewColumn, previewViewColumn)`; editors are then shown at
`currentViewColumn++`. -/
def viewColumns (includedFiles : Nat) (playgroundLayout : Json) : Nat × Nat :=
  if isLayoutStr playgroundLayout "splitRight" then (2, 1)
  else (1, includedFiles + 1)

/-! ### The preview-surface contract and the orchestrator -/

/-- One call against the preview surface, reified. -/
inductive UpdateCall where
  | updateManifest (content : String) (runOnEdit : Bool)
  | updateHTML (content : String) (runOnEdit : Bool)
  | updateCSS (content : String) (runOnEdit : Bool)
  | updateJavaScript (document : TextDocument) (runOnEdit : Bool)

/-- The external transpiler engines a session closes over. -/
structure Engines where
  pug : String → Option String
  sass : String → Bool → Option String
  less : String → Option String

/-- Result of the initial open of a playground. -/
structure InitResult where
  markupFile : Option String
  stylesheetFile : Option String
  scriptFile : Option String
  manifestContent : String
  manifest : Json
  playgroundLayout : Json
  editorLayout : EditorLayout
  currentViewColumn : Nat
  previewViewColumn : Nat
  updates : List UpdateCall
  writes : List String
  gist : Gist

/-- Models the effectful prefix of `openPlayground` (571-794) through the
initial full push: role resolution, manifest resolution (which can throw,
before anything is rendered), the guarded manifest parse with its `{}`
fallback (582-586), layout and view-column computation, and the initial
`updateManifest`/`updateHTML`/`updateCSS`/`updateJavaScript` calls
(775-784).  Host window management (document showing, webview-panel
creation, context keys, auto-save timer) bears on no claim and is not
modelled; document texts are the bundle's file contents, as
`openTextDocument` reads them from the store after the manifest
write-back. -/
def openPlaygroundInit (eng : Engines) (g : Gist) (cfgLayout : String) :
    Except JsErr InitResult :=
  let markupFile := getGistFileOfType g .markup
  let stylesheetFile := getGistFileOfType g .stylesheet
  let scriptFile := getGistFileOfType g .script
  let includedFiles := [markupFile.isSome, stylesheetFile.isSome, scriptFile.isSome].count true
  match getManifestContent g with
  | .error e => .error e
  | .ok res =>
    let manifestContent := res.content
    let manifest := (parseJson manifestContent).getD (.obj [])
    match playgroundLayoutOf manifest cfgLayout with
    | .error e => .error e
    | .ok playgroundLayout =>
      let editorLayout := selectEditorLayout includedFiles playgroundLayout
      let cols := viewColumns includedFiles playgroundLayout
      let docOf := fun name =>
        (res.gist.getFile name).map (fun f => TextDocument.mk g.id name f.content)
      let htmlDocument := markupFile.bind docOf
      let cssDocument := stylesheetFile.bind docOf
      let jsDocument := scriptFile.bind docOf
      let htmlInit :=
        match htmlDocument with
        | some doc => (getMarkupContent eng.pug doc).getD ""
        | none => ""
      let cssInit :=
        match cssDocument with
        | some doc => (getStylesheetContent eng.sass eng.less doc).getD ""
        | none => ""
      let updates :=
        [UpdateCall.updateManifest manifestContent false,
         UpdateCall.updateHTML htmlInit false,
         UpdateCall.updateCSS cssInit false] ++
        (match jsDocument with
         | some doc => [UpdateCall.updateJavaScript doc false]
         | none => [])
      .ok ⟨markupFile, stylesheetFile, scriptFile, manifestContent, manifest,
        playgroundLayout, editorLayout, cols.1, cols.2, updates, res.writes, res.gist⟩

/-- The per-session state the debounced change handler closes over:
`gist`, the tracked `jsDocument` (never reassigned by the handler), and
the `manifest` variable the manifest branch reassigns. -/
structure SessionCtx where
  gist : Gist
  jsDocument : Option TextDocument
  manifest : Json

/-- Outcome of one handler invocation: the new closed-over state, the
preview-surface calls issued (in order), the store writes, and whether a
JavaScript exception escaped the handler. -/
structure HandleOutcome where
  state : SessionCtx
  calls : List UpdateCall
  writes : List String
  threw : Bool

/-- Models one invocation of the debounced change-handler body (712-758)
on a single changed document.  `threw` records an exception escaping the
handler — the unguarded `getManifestContent` call of the rename branch
(736) and the unguarded `JSON.parse` of the manifest branch (744); calls
issued before the throw are kept. -/
def handleChange (eng : Engines) (runOnEdit : Bool) (st : SessionCtx)
    (document : TextDocument) : HandleOutcome :=
  if isPlaygroundDocument st.gist document .markup then
    match getMarkupContent eng.pug document with
    | some content => ⟨st, [.updateHTML content runOnEdit], [], false⟩
    | none => ⟨st, [], [], false⟩
  else if isPlaygroundDocument st.gist document .script then
    match st.jsDocument with
    | some jsDoc =>
      if uriToString jsDoc ≠ uriToString document then
        match st.gist.getFile (jsBasename (uriToString jsDoc)) with
        | some oldFile =>
          let g' := (st.gist.setFile (jsBasename (uriToString document)) oldFile).removeFile
            (jsBasename (uriToString jsDoc))
          match getManifestContent g' with
          | .ok res =>
            ⟨⟨res.gist, st.jsDocument, st.manifest⟩,
             [.updateManifest res.content runOnEdit, .updateJavaScript document runOnEdit],
             res.writes, false⟩
          | .error _ => ⟨⟨g', st.jsDocument, st.manifest⟩, [], [], true⟩
        | none => ⟨st, [.updateJavaScript document runOnEdit], [], false⟩
      else ⟨st, [.updateJavaScript document runOnEdit], [], false⟩
    | none => ⟨st, [.updateJavaScript document runOnEdit], [], false⟩
  else if isPlaygroundManifestFile st.gist document then
    match st.jsDocument with
    | some jsDoc =>
      match parseJson document.text with
      | some m =>
        ⟨⟨st.gist, st.jsDocument, m⟩,
         [.updateManifest document.text runOnEdit, .updateJavaScript jsDoc runOnEdit],
         [], false⟩
      | none => ⟨st, [.updateManifest document.text runOnEdit], [], true⟩
    | none => ⟨st, [.updateManifest document.text runOnEdit], [], false⟩
  else if isPlaygroundDocument st.gist document .stylesheet then
    match getStylesheetContent eng.sass eng.less document with
    | some content => ⟨st, [.updateCSS content runOnEdit], [], false⟩
    | none => ⟨st, [], [], false⟩
  else ⟨st, [], [], false⟩

/-! ### The debounced dispatcher (line 712-759) -/

/-- Modelled from the npm `debounce` package wrapped around the handler at
712: ONE shared trailing-edge timer for all documents; each call resets
the timer and replaces the pending arguments; the wrapped body runs once
per settled burst with the last arguments.  `events` are
`(timestamp, argument)` pairs in chronological order; the result lists the
arguments the body actually runs with. -/
def debounceFires {α : Type} (wait : Nat) : List (Nat × α) → List α
  | [] => []
  | [(_, a)] => [a]
  | (t₁, a₁) :: (t₂, a₂) :: rest =>
    if t₂ < t₁ + wait then debounceFires wait ((t₂, a₂) :: rest)
    else a₁ :: debounceFires wait ((t₂, a₂) :: rest)

/-- A timeline in which every event falls inside the previous event's
debounce window. -/
def isBurst {α : Type} (wait : Nat) : List (Nat × α) → Bool
  | [] => true
  | [_] => true
  | (t₁, _) :: (t₂, a₂) :: rest =>
    decide (t₂ < t₁ + wait) && isBurst wait ((t₂, a₂) :: rest)

/-- The session's change pipeline over a finite timeline: the handler
debounced at 100 ms, as registered by `openPlayground`, folded over the
dispatched arguments. -/
def dispatchChanges (eng : Engines) (runOnEdit : Bool) (st : SessionCtx)
    (events : List (Nat × TextDocument)) : SessionCtx × List UpdateCall :=
  (debounceFires 100 events).foldl
    (fun acc d =>
      let r := handleChange eng runOnEdit acc.1 d
      (r.state, acc.2 ++ r.calls))
    (st, [])

/-! ### Template resolution (lines 50-54, 461-549) -/

structure GalleryTemplate where
  label : String
  description : String
  gist : String

/-- A quick-pick entry: a template, or the trailing
`NO_TEMPLATE_GIST_ITEM` sentinel ("Continue without a template"). -/
inductive QuickItem where
  | template (t : GalleryTemplate)
  | noTemplate

/-- Models the user-template scan of `newPlaygroundInternal` (524-540):
gists with a truthy-content manifest that parses and has a truthy
`template` field; a parse failure or a throwing property access is
swallowed by the no-op `catch`.  The label and description builders
(`getGistLabel`/`getGistDescription`, from the utils module outside this
repository slice) are parameters. -/
def collectUserTemplates (label description : Gist → String) (gists : List Gist) :
    List GalleryTemplate :=
  gists.filterMap fun g =>
    match g.getFile PLAYGROUND_FILE with
    | some f =>
      if f.content ≠ "" then
        match parseJson f.content with
        | some m =>
          match jsGetProp m "template" with
          | .ok (some v) =>
            if jsTruthy v then some ⟨label g, description g, g.id⟩ else none
          | .ok none => none
          | .error _ => none
        | none => none
      else none
    | none => none

/-- Models the quick-pick construction of `newPlaygroundInternal`
(542-549): `none` when there is no template at all — the function then
creates a playground without a template and never shows the list —
otherwise the templates sorted by label (the `localeCompare`-based
comparator is the parameter `le`; `Array.prototype.sort` is stable) with
the sentinel appended last. -/
def newPlaygroundQuickPickItems (le : String → String → Bool)
    (galleryTemplates userTemplates : List GalleryTemplate) : Option (List QuickItem) :=
  let templates := galleryTemplates ++ userTemplates
  if templates.length = 0 then none
  else
    some ((templates.mergeSort (fun a b => le a.label b.label)).map QuickItem.template ++
      [QuickItem.noTemplate])

/-! ### Facts about SameValueZero membership and Set dedup -/

theorem primEq_trans_left {a b : Json} (h : Json.primEq a b = true) (c : Json) :
    Json.primEq c a = Json.primEq c b := by
  cases a <;> cases b <;> simp_all [Json.primEq]

theorem jsArrIncludes_cons (c : Json) (cs : List Json) (x : Json) :
    jsArrIncludes (c :: cs) x = (Json.primEq c x || jsArrIncludes cs x) := by
  simp [jsArrIncludes]

theorem jsArrIncludes_append (l₁ l₂ : List Json) (x : Json) :
    jsArrIncludes (l₁ ++ l₂) x = (jsArrIncludes l₁ x || jsArrIncludes l₂ x) := by
  simp [jsArrIncludes]

theorem jsArrIncludes_congr {c x : Json} (h : Json.primEq c x = true) (l : List Json) :
    jsArrIncludes l x = jsArrIncludes l c := by
  simp only [jsArrIncludes]
  have hfun : (fun e => Json.primEq e x) = fun e => Json.primEq e c :=
    funext fun e => (primEq_trans_left h e).symm
  rw [hfun]

theorem jsArrIncludes_dedupAcc :
    ∀ (l seen : List Json) (x : Json),
      jsArrIncludes (dedupAcc seen l) x =
        (jsArrIncludes l x && !jsArrIncludes seen x) := by
  intro l
  induction l with
  | nil => intro seen x; simp [dedupAcc, jsArrIncludes]
  | cons c cs ih =>
    intro seen x
    by_cases hc : jsArrIncludes seen c = true
    · rw [show dedupAcc seen (c :: cs) = dedupAcc seen cs by simp [dedupAcc, hc]]
      rw [ih, jsArrIncludes_cons]
      by_cases hcx : Json.primEq c x = true
      · have hs : jsArrIncludes seen x = true := by
          rw [jsArrIncludes_congr hcx seen]; exact hc
        simp [hcx, hs]
      · simp [hcx]
    · rw [show dedupAcc seen (c :: cs) = c :: dedupAcc (seen ++ [c]) cs by
        simp [dedupAcc, hc]]
      rw [jsArrIncludes_cons, ih, jsArrIncludes_cons, jsArrIncludes_append]
      by_cases hcx : Json.primEq c x = true
      · have hs : jsArrIncludes seen x = false := by
          rw [jsArrIncludes_congr hcx seen]
          exact Bool.not_eq_true _ ▸ eq_false_of_ne_true hc
        simp [hcx, hs]
      · simp [jsArrIncludes, hcx]

theorem jsArrIncludes_jsSetDedup (l : List Json) (x : Json) :
    jsArrIncludes (jsSetDedup l) x = jsArrIncludes l x := by
  rw [jsSetDedup, jsArrIncludes_dedupAcc]
  simp [jsArrIncludes]

theorem primEq_to_composite (e : Json) :
    (∀ l, Json.primEq e (.arr l) = false) ∧ (∀ fs, Json.primEq e (.obj fs) = false) := by
  cases e <;> simp [Json.primEq]

theorem primNodup_dedupAcc : ∀ (l seen : List Json), primNodup (dedupAcc seen l) = true := by
  intro l
  induction l with
  | nil => intro seen; simp [dedupAcc, primNodup]
  | cons c cs ih =>
    intro seen
    by_cases hc : jsArrIncludes seen c = true
    · rw [show dedupAcc seen (c :: cs) = dedupAcc seen cs by simp [dedupAcc, hc]]
      exact ih seen
    · rw [show dedupAcc seen (c :: cs) = c :: dedupAcc (seen ++ [c]) cs by
        simp [dedupAcc, hc]]
      simp only [primNodup, Bool.and_eq_true, Bool.not_eq_true']
      refine ⟨?_, ih (seen ++ [c])⟩
      rw [jsArrIncludes_dedupAcc, jsArrIncludes_append]
      by_cases hcc : Json.primEq c c = true
      · simp [jsArrIncludes_cons, hcc]
      · have hcomp : ∀ e, Json.primEq e c = false := by
          intro e
          cases c with
          | null => simp [Json.primEq] at hcc
          | bool b => simp [Json.primEq] at hcc
          | str s => simp [Json.primEq] at hcc
          | arr l => exact (primEq_to_composite e).1 l
          | obj fs => exact (primEq_to_composite e).2 fs
        simp [jsArrIncludes, hcomp]

theorem primNodup_jsSetDedup (l : List Json) : primNodup (jsSetDedup l) = true :=
  primNodup_dedupAcc l []

/-! ### Object-property and bundle-file update facts -/

theorem lookupLast_setPropList (fs : List (String × Json)) (k : String) (v : Json) :
    lookupLast (setPropList fs k v) k = some v := by
  induction fs with
  | nil => simp [setPropList, lookupLast]
  | cons p rest ih =>
    obtain ⟨k', v'⟩ := p
    simp only [setPropList]
    split
    · next hcond =>
      simp only [Bool.and_eq_true, beq_iff_eq, Option.isNone_iff_eq_none] at hcond
      simp [lookupLast, hcond.1, hcond.2]
    · simp [lookupLast, ih]

theorem setFileList_keys (files : List (String × GistFile)) (n : String) (f : GistFile)
    (h : (files.find? (fun p => p.1 == n)).isSome) :
    (setFileList files n f).map Prod.fst = files.map Prod.fst := by
  induction files with
  | nil => simp [List.find?] at h
  | cons p rest ih =>
    obtain ⟨n', f'⟩ := p
    by_cases hn : n' = n
    · simp [setFileList, hn]
    · have hn' : (n' == n) = false := by simp [hn]
      simp only [List.find?, hn'] at h
      simp [setFileList, hn', ih h]

theorem getFile_setFile (g : Gist) (n : String) (f : GistFile) :
    (g.setFile n f).getFile n = some f := by
  show ((setFileList g.files n f).find? (fun p => p.1 == n)).map Prod.snd = some f
  induction g.files with
  | nil => simp [setFileList, List.find?]
  | cons p rest ih =>
    obtain ⟨n', f'⟩ := p
    by_cases hn : n' = n
    · simp [setFileList, hn, List.find?]
    · have hn' : (n' == n) = false := by simp [hn]
      simp only [setFileList, hn', if_false, List.find?, ih]

theorem includesReactFiles_setFile (g : Gist) (n : String) (f : GistFile)
    (h : (g.getFile n).isSome) :
    includesReactFiles (g.setFile n f) = includesReactFiles g := by
  have hf : (g.files.find? (fun p => p.1 == n)).isSome := by
    cases hfind : g.files.find? (fun p => p.1 == n) with
    | none => rw [Gist.getFile, hfind] at h; simp at h
    | some p => simp
  show ((Gist.setFile g n f).fileNames).any isReactFile = _
  unfold Gist.fileNames Gist.setFile
  rw [setFileList_keys g.files n f hf]
  rfl

/-! ### Branch characterizations of `getManifestContent` -/

theorem getManifestContent_no_manifest (g : Gist)
    (hgf : g.getFile PLAYGROUND_FILE = none) :
    getManifestContent g = .ok ⟨"", g, []⟩ := by
  simp only [getManifestContent, hgf]

theorem getManifestContent_no_react (g : Gist) (file : GistFile)
    (hgf : g.getFile PLAYGROUND_FILE = some file)
    (hr : includesReactFiles g = false) :
    getManifestContent g = .ok ⟨file.content, g, []⟩ := by
  simp only [getManifestContent, hgf, hr, Bool.false_eq_true, if_false]

theorem getManifestContent_react_present (g : Gist) (file : GistFile)
    (parsed : Json) (scripts : Option Json)
    (hgf : g.getFile PLAYGROUND_FILE = some file)
    (hr : includesReactFiles g = true)
    (hp : parseJson file.content = some parsed)
    (hq : jsGetProp parsed "scripts" = .ok scripts)
    (hinc : includesReactScripts scripts = .ok true) :
    getManifestContent g = .ok ⟨file.content, g, []⟩ := by
  simp only [getManifestContent, hgf, hr, if_true, hp, hq, hinc]

theorem getManifestContent_inject (g : Gist) (file : GistFile)
    (parsed : Json) (elems : List Json)
    (hgf : g.getFile PLAYGROUND_FILE = some file)
    (hr : includesReactFiles g = true)
    (hp : parseJson file.content = some parsed)
    (hq : jsGetProp parsed "scripts" = .ok (some (.arr elems)))
    (hinc : includesReactScripts (some (.arr elems)) = .ok false) :
    getManifestContent g =
      .ok ⟨jsonStringify2 (jsSetProp parsed "scripts"
             (.arr (jsSetDedup (elems ++ [.str "react", .str "react-dom"])))),
           g.setFile PLAYGROUND_FILE
             ⟨jsonStringify2 (jsSetProp parsed "scripts"
               (.arr (jsSetDedup (elems ++ [.str "react", .str "react-dom"]))))⟩,
           [jsonStringify2 (jsSetProp parsed "scripts"
             (.arr (jsSetDedup (elems ++ [.str "react", .str "react-dom"]))))]⟩ := by
  simp only [getManifestContent, hgf, hr, if_true, hp, hq, hinc]

theorem jsGetProp_ok_some {j : Json} {k : String} {v : Json}
    (h : jsGetProp j k = .ok (some v)) :
    ∃ fields, j = .obj fields ∧ lookupLast fields k = some v := by
  cases j <;> simp_all [jsGetProp]

theorem jsSetDedup_includes_react (elems : List Json) :
    jsArrIncludes (jsSetDedup (elems ++ [.str "react", .str "react-dom"]))
      (.str "react") = true := by
  rw [jsArrIncludes_jsSetDedup, jsArrIncludes_append]
  have hc : jsArrIncludes [Json.str "react", Json.str "react-dom"] (.str "react") = true := rfl
  simp [hc]

theorem jsSetDedup_includes_react_dom (elems : List Json) :
    jsArrIncludes (jsSetDedup (elems ++ [.str "react", .str "react-dom"]))
      (.str "react-dom") = true := by
  rw [jsArrIncludes_jsSetDedup, jsArrIncludes_append]
  have hc : jsArrIncludes [Json.str "react", Json.str "react-dom"]
      (.str "react-dom") = true := rfl
  simp [hc]

theorem includesReactScripts_after_inject (elems : List Json) :
    includesReactScripts
      (some (.arr (jsSetDedup (elems ++ [.str "react", .str "react-dom"])))) = .ok true := by
  simp only [includesReactScripts, REACT_SCRIPTS, List.all_cons, List.all_nil,
    jsSetDedup_includes_react, jsSetDedup_includes_react_dom]
  rfl

/-- Characterization of every successful run of `getManifestContent`: the
returned bundle resolves to the same content with no further write
(idempotence), and whenever a write occurred the persisted scripts list is
SameValueZero-deduplicated. -/
theorem getManifestContent_ok_cases (g : Gist) (r : ManifestResult)
    (h : getManifestContent g = .ok r) :
    getManifestContent r.gist = .ok ⟨r.content, r.gist, []⟩ ∧
    (r.writes ≠ [] → ∃ m' elems', parseJson r.content = some m' ∧
      jsGetProp m' "scripts" = .ok (some (.arr elems')) ∧ primNodup elems' = true) := by
  unfold getManifestContent at h
  split at h
  · next hgf =>
    cases h
    exact ⟨getManifestContent_no_manifest g hgf, by simp⟩
  · next file hgf =>
    split at h
    · next hr =>
      split at h
      · simp at h
      · next parsed hp =>
        split at h
        · simp at h
        · next scripts hq =>
          split at h
          · simp at h
          · next hinc =>
            cases h
            exact ⟨getManifestContent_react_present g file parsed scripts hgf hr hp hq hinc,
              by simp⟩
          · next hinc =>
            split at h
            · next elems =>
              cases h
              obtain ⟨fields, hobj, hlook⟩ := jsGetProp_ok_some hq
              have hsome : (g.getFile PLAYGROUND_FILE).isSome := by simp [hgf]
              have hgp : jsGetProp
                  (jsSetProp parsed "scripts"
                    (.arr (jsSetDedup (elems ++ [.str "react", .str "react-dom"]))))
                  "scripts" =
                  .ok (some (.arr (jsSetDedup (elems ++ [.str "react", .str "react-dom"])))) := by
                rw [hobj]
                show jsGetProp (.obj (setPropList fields "scripts" _)) "scripts" = _
                simp only [jsGetProp, lookupLast_setPropList]
              constructor
              · apply getManifestContent_react_present _ _
                  (jsSetProp parsed "scripts"
                    (.arr (jsSetDedup (elems ++ [.str "react", .str "react-dom"]))))
                  (some (.arr (jsSetDedup (elems ++ [.str "react", .str "react-dom"]))))
                · exact getFile_setFile g PLAYGROUND_FILE _
                · rw [includesReactFiles_setFile g PLAYGROUND_FILE _ hsome]
                  exact hr
                · exact parseJson_stringify2 _
                · exact hgp
                · exact includesReactScripts_after_inject elems
              · intro _
                exact ⟨jsSetProp parsed "scripts"
                    (.arr (jsSetDedup (elems ++ [.str "react", .str "react-dom"]))),
                  jsSetDedup (elems ++ [.str "react", .str "react-dom"]),
                  parseJson_stringify2 _, hgp, primNodup_jsSetDedup _⟩
            · simp at h
    · next hr =>
      cases h
      refine ⟨getManifestContent_no_react g file hgf ?_, by simp⟩
      simpa using hr

/-! ### Branch-exclusion facts for the change handler -/

theorem asciiLowerChar_slash (c : Char) :
    (asciiLowerChar c = '/') ↔ (c = '/') := by
  unfold asciiLowerChar
  split <;> simp_all

theorem jsBasename_asciiLower (s : String) :
    jsBasename (asciiLower s) = asciiLower (jsBasename s) := by
  have hp : ((fun c => decide (c ≠ '/')) ∘ asciiLowerChar) =
      (fun c : Char => decide (c ≠ '/')) :=
    funext fun c => by simp [Function.comp, asciiLowerChar_slash]
  unfold jsBasename asciiLower
  have hdata : ∀ l : List Char, (String.mk l).data = l := fun _ => rfl
  rw [hdata, hdata]
  congr 1
  rw [← List.map_reverse, List.takeWhile_map, hp, ← List.map_reverse]

theorem stylesheet_candidates_lower (b : String)
    (h : (roleCandidates .stylesheet).contains b = true) :
    ((roleCandidates .markup).contains b = false ∧
     (roleCandidates .script).contains b = false) ∧
    (asciiLower b == PLAYGROUND_FILE) = false := by
  simp only [roleCandidates, roleExtensions, roleBaseName, STYLESHEET_EXTENSIONS,
    STYLESHEET_BASE_NAME, List.map] at h
  simp at h
  rcases h with h | h | h | h <;> subst h <;> exact ⟨⟨by decide, by decide⟩, by decide⟩

theorem manifest_doc_excl (g : Gist) (document : TextDocument)
    (h : isPlaygroundManifestFile g document = true) :
    isPlaygroundDocument g document .markup = false ∧
    isPlaygroundDocument g document .script = false := by
  unfold isPlaygroundManifestFile at h
  unfold isPlaygroundDocument
  by_cases hid : (g.id != document.uriAuthority) = true
  · rw [if_pos hid] at h
    cases h
  · rw [if_neg hid] at h
    rw [if_neg hid, if_neg hid]
    rw [jsBasename_asciiLower] at h
    constructor
    · by_cases hm : (roleCandidates .markup).contains (jsBasename (uriToString document)) = true
      · exfalso
        simp only [roleCandidates, roleExtensions, roleBaseName, MARKUP_EXTENSIONS,
          MARKUP_BASE_NAME, List.map] at hm
        simp at hm
        rcases hm with hm | hm <;> rw [hm] at h <;> exact absurd h (by decide)
      · simpa using hm
    · by_cases hs : (roleCandidates .script).contains (jsBasename (uriToString document)) = true
      · exfalso
        simp only [roleCandidates, roleExtensions, roleBaseName, SCRIPT_EXTENSIONS,
          SCRIPT_BASE_NAME, MODULE_EXTENSIONS, TYPESCRIPT_EXTENSIONS, REACT_EXTENSIONS,
          List.map, List.cons_append, List.nil_append] at hs
        simp at hs
        rcases hs with hs | hs | hs | hs | hs | hs <;> rw [hs] at h <;>
          exact absurd h (by decide)
      · simpa using hs

theorem stylesheet_doc_excl (g : Gist) (document : TextDocument)
    (h : isPlaygroundDocument g document .stylesheet = true) :
    isPlaygroundDocument g document .markup = false ∧
    isPlaygroundDocument g document .script = false ∧
    isPlaygroundManifestFile g document = false := by
  unfold isPlaygroundDocument at h
  unfold isPlaygroundDocument isPlaygroundManifestFile
  by_cases hid : (g.id != document.uriAuthority) = true
  · rw [if_pos hid] at h
    cases h
  · rw [if_neg hid] at h
    rw [if_neg hid, if_neg hid, if_neg hid]
    obtain ⟨⟨hm, hs⟩, hpf⟩ := stylesheet_candidates_lower _ h
    refine ⟨hm, hs, ?_⟩
    rw [jsBasename_asciiLower]
    exact hpf

/-! ### The claims -/

/-- C9: for every adapter (markup, stylesheet, script) and every supported
dialect — the document's extension, hence its dialect, is arbitrary —
transpiling the empty string returns the empty string, with no
transpilation failure possible on empty input (the result is neither a
`null` content nor a thrown error), for every engine behavior and every
manifest. -/
theorem claim_c9_empty_input_identity (pug : String → Option String)
    (sass : String → Bool → Option String) (less : String → Option String)
    (ts : String → CompilerOptions → Option String) (manifest : Option Json)
    (document : TextDocument) (h : document.text = "") :
    getMarkupContent pug document = some "" ∧
    getStylesheetContent sass less document = some "" ∧
    getScriptContent ts document manifest = .ok (some "") := by
  have ht : jsTrim "" = "" := rfl
  unfold getMarkupContent getStylesheetContent getScriptContent
  rw [h]
  simp [ht]

/-- Witness for C9 at a concrete document of each role-relevant dialect,
with engines that fail on every input: even then the result is the empty
string, not a failure. -/
theorem claim_c9_witness :
    (⟨"w9", "script.tsx", ""⟩ : TextDocument).text = "" ∧
    (getMarkupContent (fun _ => none) ⟨"w9", "script.tsx", ""⟩ = some "" ∧
     getStylesheetContent (fun _ _ => none) (fun _ => none) ⟨"w9", "script.tsx", ""⟩ =
       some "" ∧
     getScriptContent (fun _ _ => none) ⟨"w9", "script.tsx", ""⟩ none = .ok (some "")) :=
  ⟨rfl, claim_c9_empty_input_identity (fun _ => none) (fun _ _ => none) (fun _ => none)
    (fun _ _ => none) none ⟨"w9", "script.tsx", ""⟩ rfl⟩

/-- C10: every whitespace-only input short-circuits all three adapters —
the content is returned unchanged for every engine behavior (so the
underlying transpiler is never consulted and the result can never be
`null`), not just for the empty string. -/
theorem claim_c10_whitespace_fast_path (pug : String → Option String)
    (sass : String → Bool → Option String) (less : String → Option String)
    (ts : String → CompilerOptions → Option String) (manifest : Option Json)
    (document : TextDocument) (h : jsTrim document.text = "") :
    getMarkupContent pug document = some document.text ∧
    getStylesheetContent sass less document = some document.text ∧
    getScriptContent ts document manifest = .ok (some document.text) := by
  unfold getMarkupContent getStylesheetContent getScriptContent
  simp [h]

/-- Witness for C10: a whitespace-only `.scss` and `.pug` text passed to
always-failing engines still comes back unchanged and non-null. -/
theorem claim_c10_witness :
    jsTrim "  \n\t " = "" ∧
    (getMarkupContent (fun _ => none) ⟨"w10", "style.scss", "  \n\t "⟩ = some "  \n\t " ∧
     getStylesheetContent (fun _ _ => none) (fun _ => none) ⟨"w10", "style.scss", "  \n\t "⟩ =
       some "  \n\t " ∧
     getScriptContent (fun _ _ => none) ⟨"w10", "style.scss", "  \n\t "⟩ none =
       .ok (some "  \n\t ")) :=
  ⟨rfl, claim_c10_whitespace_fast_path (fun _ => none) (fun _ _ => none) (fun _ => none)
    (fun _ _ => none) none ⟨"w10", "style.scss", "  \n\t "⟩ rfl⟩

/-- C7: for every role set (any combination of markup, stylesheet and
script being present), the splitRight preference yields exactly the
reverse of the top-level pane groups computed for the default (splitLeft)
preference, with the same orientation, and assigns the preview the
left-most view column (1) while editors start from column two. -/
theorem claim_c7_splitRight_reverses (m s j : Bool) :
    (selectEditorLayout ([m, s, j].count true) (.str "splitRight")).groups =
      ((selectEditorLayout ([m, s, j].count true) (.str "splitLeft")).groups).reverse ∧
    (selectEditorLayout ([m, s, j].count true) (.str "splitRight")).orientation =
      (selectEditorLayout ([m, s, j].count true) (.str "splitLeft")).orientation ∧
    viewColumns ([m, s, j].count true) (.str "splitRight") = (2, 1) := by
  cases m <;> cases s <;> cases j <;> exact ⟨rfl, rfl, rfl⟩

/-- Bundle listing a TypeScript script before a JavaScript one, in bundle
order. -/
def gistC6 : Gist := ⟨"c6", [("script.ts", ⟨"let x"⟩), ("script.js", ⟨"var x"⟩)]⟩

/-- The resolution rule in the spec's words, for comparison: the first
candidate in the role's fixed extension-priority order that is present in
the bundle. -/
def extensionPriorityResolve (g : Gist) (fileType : PlaygroundFileType) : Option String :=
  (roleCandidates fileType).find? (fun candidate => g.fileNames.contains candidate)

/-- C6 counterexample: with `script.ts` listed before `script.js`, the
code resolves `script.ts` (bundle order), while the claimed
extension-priority order (`.js` before `.ts` in `SCRIPT_EXTENSIONS`)
would resolve `script.js`. -/
theorem claim_c6_counterexample :
    getGistFileOfType gistC6 .script = some "script.ts" ∧
    extensionPriorityResolve gistC6 .script = some "script.js" ∧
    getGistFileOfType gistC6 .script ≠ extensionPriorityResolve gistC6 .script :=
  ⟨rfl, rfl, by decide⟩

/-- C6 amended: at most one file resolves per role (the function returns
at most one name); a resolved file always has the role's canonical base
name with an extension from the role's fixed set; and among qualifying
files the FIRST ONE IN THE BUNDLE'S OWN ORDER is resolved — every earlier
bundle entry fails the qualification rule — rather than the extension
table's priority order. -/
theorem claim_c6_amended (g : Gist) (fileType : PlaygroundFileType) (f : String)
    (h : getGistFileOfType g fileType = some f) :
    (∃ ext ∈ roleExtensions fileType, f = roleBaseName fileType ++ ext) ∧
    ∃ pre post, g.fileNames = pre ++ f :: post ∧
      ∀ f' ∈ pre, ¬∃ ext ∈ roleExtensions fileType, f' = roleBaseName fileType ++ ext := by
  unfold getGistFileOfType at h
  rw [List.find?_eq_some] at h
  obtain ⟨hf, pre, post, hsplit, hpre⟩ := h
  have hc : ∀ x : String, ((roleCandidates fileType).contains x = true) ↔
      ∃ ext ∈ roleExtensions fileType, x = roleBaseName fileType ++ ext := by
    intro x
    simp [roleCandidates, eq_comm]
  refine ⟨(hc f).mp hf, pre, post, hsplit, fun f' hf' hex => ?_⟩
  have h1 := hpre f' hf'
  rw [(hc f').mpr hex] at h1
  simp at h1

/-- Bundle for the C6 witness: a non-qualifying first entry, then two
stylesheet candidates in bundle order. -/
def gistC6w : Gist := ⟨"c6w", [("README.md", ⟨""⟩), ("style.scss", ⟨"p"⟩), ("style.css", ⟨"q"⟩)]⟩

theorem claim_c6_witness :
    getGistFileOfType gistC6w .stylesheet = some "style.scss" ∧
    ((∃ ext ∈ roleExtensions .stylesheet, "style.scss" = roleBaseName .stylesheet ++ ext) ∧
     ∃ pre post, gistC6w.fileNames = pre ++ "style.scss" :: post ∧
       ∀ f' ∈ pre, ¬∃ ext ∈ roleExtensions .stylesheet,
         f' = roleBaseName .stylesheet ++ ext) :=
  ⟨rfl, claim_c6_amended gistC6w .stylesheet "style.scss" rfl⟩

/-- C5: a markup or stylesheet change whose transpilation returns `null`
issues NO update call at all (in particular none for its layer), leaves
the session state unchanged, performs no store write, and lets no
exception escape — the previously rendered layer is preserved by
omission. -/
theorem claim_c5_null_transpile_suppressed (eng : Engines) (runOnEdit : Bool)
    (st : SessionCtx) (document : TextDocument) :
    (isPlaygroundDocument st.gist document .markup = true →
      getMarkupContent eng.pug document = none →
      handleChange eng runOnEdit st document = ⟨st, [], [], false⟩) ∧
    (isPlaygroundDocument st.gist document .stylesheet = true →
      getStylesheetContent eng.sass eng.less document = none →
      handleChange eng runOnEdit st document = ⟨st, [], [], false⟩) := by
  constructor
  · intro hdoc htr
    unfold handleChange
    rw [if_pos hdoc, htr]
  · intro hdoc htr
    obtain ⟨hm, hs, hpf⟩ := stylesheet_doc_excl st.gist document hdoc
    unfold handleChange
    rw [if_neg (by simp [hm]), if_neg (by simp [hs]), if_neg (by simp [hpf]),
      if_pos hdoc, htr]

/-- Failing engines and concrete pug/scss documents for the C5 witness. -/
def enginesFail : Engines := ⟨fun _ => none, fun _ _ => none, fun _ => none⟩

theorem claim_c5_witness :
    (isPlaygroundDocument (⟨"w5", []⟩ : Gist) ⟨"w5", "index.pug", "bad("⟩ .markup = true ∧
     getMarkupContent enginesFail.pug ⟨"w5", "index.pug", "bad("⟩ = none ∧
     handleChange enginesFail true ⟨⟨"w5", []⟩, none, .obj []⟩ ⟨"w5", "index.pug", "bad("⟩ =
       ⟨⟨⟨"w5", []⟩, none, .obj []⟩, [], [], false⟩) ∧
    (isPlaygroundDocument (⟨"w5", []⟩ : Gist) ⟨"w5", "style.scss", "bad("⟩ .stylesheet = true ∧
     getStylesheetContent enginesFail.sass enginesFail.less ⟨"w5", "style.scss", "bad("⟩ =
       none ∧
     handleChange enginesFail true ⟨⟨"w5", []⟩, none, .obj []⟩ ⟨"w5", "style.scss", "bad("⟩ =
       ⟨⟨⟨"w5", []⟩, none, .obj []⟩, [], [], false⟩) :=
  ⟨⟨rfl, rfl,
    (claim_c5_null_transpile_suppressed enginesFail true ⟨⟨"w5", []⟩, none, .obj []⟩
      ⟨"w5", "index.pug", "bad("⟩).1 rfl rfl⟩,
   ⟨rfl, rfl,
    (claim_c5_null_transpile_suppressed enginesFail true ⟨⟨"w5", []⟩, none, .obj []⟩
      ⟨"w5", "style.scss", "bad("⟩).2 rfl rfl⟩⟩

/-- Session fixtures for the C4 debounce scenarios: passthrough-style
engines, an empty bundle (the handler classifies by URI, not by bundle
contents), and markup/stylesheet documents of the same session. -/
def enginesC4 : Engines :=
  ⟨fun s => some ("pug:" ++ s), fun s _ => some ("css:" ++ s), fun s => some ("less:" ++ s)⟩

def sessionC4 : SessionCtx := ⟨⟨"c4", []⟩, none, .obj []⟩

def scssDocC4a : TextDocument := ⟨"c4", "style.scss", "a"⟩

def scssDocC4b : TextDocument := ⟨"c4", "style.scss", "b"⟩

def htmlDocC4 : TextDocument := ⟨"c4", "index.html", "<p>hi</p>"⟩

/-- C4 counterexample: an edit to `style.scss` at t=0 followed by an edit
to `index.html` at t=50 — a burst on documents of two different roles
inside one 100 ms window.  The single shared debounce timer coalesces
both into ONE dispatch carrying only the last event, so the stylesheet
edit is dropped: the pipeline issues one HTML patch and NO CSS patch,
refuting the per-document-timer reading under which each role still gets
its own patch. -/
theorem claim_c4_counterexample :
    debounceFires 100 [(0, scssDocC4a), (50, htmlDocC4)] = [htmlDocC4] ∧
    (dispatchChanges enginesC4 true sessionC4 [(0, scssDocC4a), (50, htmlDocC4)]).2 =
      [.updateHTML "<p>hi</p>" true] ∧
    ((dispatchChanges enginesC4 true sessionC4 [(0, scssDocC4a), (50, htmlDocC4)]).2.all
      fun c => match c with
        | UpdateCall.updateCSS _ _ => false
        | _ => true) = true :=
  ⟨rfl, rfl, rfl⟩

/-- C4 amended: the change events are debounced through ONE shared 100 ms
trailing-edge window for ALL documents — each event resets the single
timer, and when a burst settles the handler runs exactly once, with the
last event's document — so two rapid edits to the same `style.scss`
within 100 ms still yield exactly one CSS patch carrying the second
edit's content, but a burst across documents of different roles dispatches
only the last document. -/
theorem claim_c4_amended :
    (∀ (α : Type) (e : Nat × α) (events : List (Nat × α)),
        isBurst 100 (e :: events) = true →
        debounceFires 100 (e :: events) = [(events.getLastD e).2]) ∧
    (dispatchChanges enginesC4 true sessionC4 [(0, scssDocC4a), (50, scssDocC4b)]).2 =
      [.updateCSS "css:b" true] := by
  constructor
  · intro α e events
    induction events generalizing e with
    | nil => intro _; rfl
    | cons e' es ih =>
      obtain ⟨t₁, a₁⟩ := e
      obtain ⟨t₂, a₂⟩ := e'
      intro hb
      simp only [isBurst, Bool.and_eq_true, decide_eq_true_eq] at hb
      rw [show debounceFires 100 ((t₁, a₁) :: (t₂, a₂) :: es) =
          debounceFires 100 ((t₂, a₂) :: es) by simp [debounceFires, hb.1]]
      rw [ih (t₂, a₂) hb.2]
      rw [List.getLastD_cons]
  · rfl

theorem claim_c4_witness :
    isBurst 100 [((0 : Nat), (1 : Nat)), (50, 2), (120, 3)] = true ∧
    debounceFires 100 [((0 : Nat), (1 : Nat)), (50, 2), (120, 3)] = [3] :=
  ⟨rfl, claim_c4_amended.1 Nat (0, 1) [(50, 2), (120, 3)] rfl⟩

/-- The comparator the witnesses instantiate for the label sort. -/
def labelLe (a b : String) : Bool := decide (a ≤ b)

/-- C8 counterexample: with the gallery empty and no user gist carrying a
template manifest, `newPlaygroundInternal` bails out to
`newPlaygroundWithoutTemplate` before populating the quick pick: NO
template list is offered at all, so the "no template" sentinel is not
present in that state — refuting "always present and always last ...
including when both are empty". -/
theorem claim_c8_counterexample :
    newPlaygroundQuickPickItems labelLe []
      (collectUserTemplates (fun _ => "") (fun _ => "") []) = none :=
  rfl

/-- C8 amended: whenever at least one gallery or user template exists, the
offered quick-pick list is exactly the templates — sorted stably by
display label under the `localeCompare` comparator — followed by the
trailing "no template" sentinel, which is then always present and always
last; when both collections are empty no template choice is offered at
all. -/
theorem claim_c8_amended (le : String → String → Bool)
    (htrans : ∀ a b c, le a b = true → le b c = true → le a c = true)
    (htotal : ∀ a b, (le a b || le b a) = true)
    (galleryTemplates : List GalleryTemplate) (label description : Gist → String)
    (gists : List Gist) :
    (galleryTemplates ++ collectUserTemplates label description gists = [] →
      newPlaygroundQuickPickItems le galleryTemplates
        (collectUserTemplates label description gists) = none) ∧
    (galleryTemplates ++ collectUserTemplates label description gists ≠ [] →
      ∃ sorted,
        newPlaygroundQuickPickItems le galleryTemplates
            (collectUserTemplates label description gists) =
          some (sorted.map QuickItem.template ++ [QuickItem.noTemplate]) ∧
        (sorted.map QuickItem.template ++ [QuickItem.noTemplate]).getLast? =
          some QuickItem.noTemplate ∧
        sorted.Perm (galleryTemplates ++ collectUserTemplates label description gists) ∧
        List.Pairwise (fun a b => le a.label b.label = true) sorted) := by
  constructor
  · intro hnil
    unfold newPlaygroundQuickPickItems
    simp [hnil]
  · intro hne
    refine ⟨(galleryTemplates ++ collectUserTemplates label description gists).mergeSort
      (fun a b => le a.label b.label), ?_, List.getLast?_concat _,
      List.mergeSort_perm _ _, ?_⟩
    · unfold newPlaygroundQuickPickItems
      rw [if_neg (fun hl => hne (List.length_eq_zero.mp hl))]
    · exact List.sorted_mergeSort
        (fun a b c hab hbc => htrans a.label b.label c.label hab hbc)
        (fun a b => htotal a.label b.label) _

/-- Gallery used by the C8 witness, deliberately out of label order. -/
def galleryC8 : List GalleryTemplate := [⟨"Zeta", "", "z"⟩, ⟨"Alpha", "", "a"⟩]

theorem claim_c8_witness :
    galleryC8 ++ collectUserTemplates (fun _ => "") (fun _ => "") [] ≠ [] ∧
    (∃ sorted,
      newPlaygroundQuickPickItems labelLe galleryC8
          (collectUserTemplates (fun _ => "") (fun _ => "") []) =
        some (sorted.map QuickItem.template ++ [QuickItem.noTemplate]) ∧
      (sorted.map QuickItem.template ++ [QuickItem.noTemplate]).getLast? =
        some QuickItem.noTemplate ∧
      sorted.Perm (galleryC8 ++ collectUserTemplates (fun _ => "") (fun _ => "") []) ∧
      List.Pairwise (fun a b => labelLe a.label b.label = true) sorted) :=
  ⟨by simp [galleryC8, collectUserTemplates],
   (claim_c8_amended labelLe
     (fun a b c h1 h2 => by
       simp only [labelLe, decide_eq_true_eq] at h1 h2 ⊢
       exact le_trans h1 h2)
     (fun a b => by
       simp only [labelLe, Bool.or_eq_true, decide_eq_true_eq]
       exact le_total a b)
     galleryC8 (fun _ => "") (fun _ => "") []).2
     (by simp [galleryC8, collectUserTemplates])⟩

/-- Identity-like engines for the C1 scenarios. -/
def enginesC1 : Engines := ⟨fun s => some s, fun s _ => some s, fun s => some s⟩

/-- A bundle holding a React-dialect file and a MALFORMED manifest. -/
def gistC1bad : Gist := ⟨"c1", [("script.jsx", ⟨"1"⟩), (PLAYGROUND_FILE, ⟨"\x7b"⟩)]⟩

def stC1bad : SessionCtx := ⟨gistC1bad, some ⟨"c1", "script.jsx", "1"⟩, .obj []⟩

def manifestDocC1 : TextDocument := ⟨"c1", PLAYGROUND_FILE, "\x7b"⟩

/-- C1 counterexample: with a React-dialect file present, the manifest
parse inside `getManifestContent` is UNGUARDED, so the malformed manifest
`"\x7b"` throws a SyntaxError that escapes manifest resolution and aborts
the open before any layer is rendered — no empty-object fallback applies.
Likewise, the manifest-change handler parses the changed text unguarded
when a script editor is open: the exception escapes the handler after
`updateManifest` but before the script layer is re-run. -/
theorem claim_c1_counterexample :
    includesReactFiles gistC1bad = true ∧
    getManifestContent gistC1bad = .error .syntaxError ∧
    openPlaygroundInit enginesC1 gistC1bad "splitLeft" = .error .syntaxError ∧
    (handleChange enginesC1 true stC1bad manifestDocC1).threw = true ∧
    (handleChange enginesC1 true stC1bad manifestDocC1).calls =
      [.updateManifest "\x7b" true] :=
  ⟨rfl, rfl, rfl, rfl, rfl⟩

/-- C1 amended: the guarded parse with a fallback sits only at the
`openPlayground` parse site, and the fallback is the EMPTY object (not a
populated `scripts`/`styles` skeleton).  When the bundle has no
React-dialect file, a malformed manifest passes through manifest
resolution unparsed and without throwing, the open succeeds with the
manifest variable fallen back to the empty object, and the markup,
stylesheet and script layers are still pushed; the manifest-change
handler also survives malformed text whenever no script editor is open.
When a React-dialect file is present, or a script editor is open during a
manifest change, the respective unguarded `JSON.parse` throws instead
(see the counterexample). -/
theorem claim_c1_amended (eng : Engines) (cfg : String) (g : Gist) (file : GistFile)
    (st : SessionCtx) (document : TextDocument)
    (hgf : g.getFile PLAYGROUND_FILE = some file)
    (hr : includesReactFiles g = false)
    (hp : parseJson file.content = none)
    (hm : isPlaygroundManifestFile st.gist document = true)
    (hjs : st.jsDocument = none) :
    getManifestContent g = .ok ⟨file.content, g, []⟩ ∧
    (∃ r, openPlaygroundInit eng g cfg = .ok r ∧ r.manifest = .obj [] ∧
      r.manifestContent = file.content ∧ r.writes = [] ∧
      ∃ h c rest, r.updates =
        .updateManifest file.content false :: .updateHTML h false ::
          .updateCSS c false :: rest) ∧
    (handleChange eng true st document).threw = false ∧
    (handleChange eng true st document).calls = [.updateManifest document.text true] := by
  have hmc := getManifestContent_no_react g file hgf hr
  have h1 := (manifest_doc_excl st.gist document hm).1
  have h2 := (manifest_doc_excl st.gist document hm).2
  refine ⟨hmc, ?_, ?_, ?_⟩
  · simp only [openPlaygroundInit, hmc, hp, Option.getD_none, playgroundLayoutOf,
      jsGetProp, lookupLast, jsTruthy]
    exact ⟨_, rfl, rfl, rfl, rfl, _, _, _, rfl⟩
  · simp [handleChange, h1, h2, hm, hjs]
  · simp [handleChange, h1, h2, hm, hjs]

/-- A React-free bundle with a malformed manifest, for the C1 witness. -/
def gistC1w : Gist := ⟨"c1w", [("index.html", ⟨"<b>hi</b>"⟩), (PLAYGROUND_FILE, ⟨"\x7b"⟩)]⟩

def stC1w : SessionCtx := ⟨gistC1w, none, .obj []⟩

def manifestDocC1w : TextDocument := ⟨"c1w", PLAYGROUND_FILE, "\x7b"⟩

theorem claim_c1_witness :
    (gistC1w.getFile PLAYGROUND_FILE = some ⟨"\x7b"⟩ ∧
     includesReactFiles gistC1w = false ∧
     parseJson "\x7b" = none ∧
     isPlaygroundManifestFile stC1w.gist manifestDocC1w = true ∧
     stC1w.jsDocument = none) ∧
    (getManifestContent gistC1w = .ok ⟨"\x7b", gistC1w, []⟩ ∧
     (∃ r, openPlaygroundInit enginesC1 gistC1w "splitLeft" = .ok r ∧
       r.manifest = .obj [] ∧ r.manifestContent = "\x7b" ∧ r.writes = [] ∧
       ∃ h c rest, r.updates =
         .updateManifest "\x7b" false :: .updateHTML h false ::
           .updateCSS c false :: rest) ∧
     (handleChange enginesC1 true stC1w manifestDocC1w).threw = false ∧
     (handleChange enginesC1 true stC1w manifestDocC1w).calls =
       [.updateManifest "\x7b" true]) :=
  ⟨⟨rfl, rfl, rfl, rfl, rfl⟩,
   claim_c1_amended enginesC1 "splitLeft" gistC1w ⟨"\x7b"⟩ stC1w manifestDocC1w
     rfl rfl rfl rfl rfl⟩

/-- The scenario bundle of C2: `script.jsx` plus the manifest
`\x7b"scripts":["lodash"]\x7d`. -/
def c2Input : String := "\x7b\"scripts\":[\"lodash\"]\x7d"

def gistC2 : Gist := ⟨"c2", [("script.jsx", ⟨"1"⟩), (PLAYGROUND_FILE, ⟨c2Input⟩)]⟩

/-- The manifest content `getManifestContent` writes back in the C2
scenario: the scripts list with both libraries appended, 2-space
indented. -/
def c2Content : String :=
  "\x7b\n  \"scripts\": [\n    \"lodash\",\n    \"react\",\n    \"react-dom\"\n  ]\n\x7d"

/-- C2: whenever the bundle holds a React-dialect file and the parsed
manifest's `scripts` array does not already include both `react` and
`react-dom`, manifest resolution returns the manifest rewritten with the
missing libraries appended and SameValueZero-deduplicated, serialized at
2-space indentation, and persists that exact content to the bundle store
exactly once; the persisted content parses back to the rewritten
manifest.  In particular the scenario bundle `script.jsx` +
`\x7b"scripts":["lodash"]\x7d` yields
`\x7b"scripts":["lodash","react","react-dom"]\x7d`. -/
theorem claim_c2_react_injection :
    (∀ (g : Gist) (file : GistFile) (parsed : Json) (elems : List Json),
      g.getFile PLAYGROUND_FILE = some file →
      includesReactFiles g = true →
      parseJson file.content = some parsed →
      jsGetProp parsed "scripts" = .ok (some (.arr elems)) →
      includesReactScripts (some (.arr elems)) = .ok false →
      getManifestContent g =
        .ok ⟨jsonStringify2 (jsSetProp parsed "scripts"
               (.arr (jsSetDedup (elems ++ [.str "react", .str "react-dom"])))),
             g.setFile PLAYGROUND_FILE
               ⟨jsonStringify2 (jsSetProp parsed "scripts"
                 (.arr (jsSetDedup (elems ++ [.str "react", .str "react-dom"]))))⟩,
             [jsonStringify2 (jsSetProp parsed "scripts"
               (.arr (jsSetDedup (elems ++ [.str "react", .str "react-dom"]))))]⟩ ∧
      parseJson (jsonStringify2 (jsSetProp parsed "scripts"
          (.arr (jsSetDedup (elems ++ [.str "react", .str "react-dom"]))))) =
        some (jsSetProp parsed "scripts"
          (.arr (jsSetDedup (elems ++ [.str "react", .str "react-dom"])))) ∧
      jsArrIncludes (jsSetDedup (elems ++ [.str "react", .str "react-dom"]))
        (.str "react") = true ∧
      jsArrIncludes (jsSetDedup (elems ++ [.str "react", .str "react-dom"]))
        (.str "react-dom") = true ∧
      primNodup (jsSetDedup (elems ++ [.str "react", .str "react-dom"])) = true) ∧
    getManifestContent gistC2 =
      .ok ⟨c2Content, gistC2.setFile PLAYGROUND_FILE ⟨c2Content⟩, [c2Content]⟩ ∧
    parseJson c2Content =
      some (.obj [("scripts",
        .arr [.str "lodash", .str "react", .str "react-dom"])]) := by
  refine ⟨?_, rfl, rfl⟩
  intro g file parsed elems hgf hr hp hq hinc
  exact ⟨getManifestContent_inject g file parsed elems hgf hr hp hq hinc,
    parseJson_stringify2 _, jsSetDedup_includes_react elems,
    jsSetDedup_includes_react_dom elems, primNodup_jsSetDedup _⟩

theorem claim_c2_witness :
    gistC2.getFile PLAYGROUND_FILE = some ⟨c2Input⟩ ∧
    includesReactFiles gistC2 = true ∧
    parseJson c2Input = some (.obj [("scripts", .arr [.str "lodash"])]) ∧
    jsGetProp (.obj [("scripts", .arr [.str "lodash"])]) "scripts" =
      .ok (some (.arr [.str "lodash"])) ∧
    includesReactScripts (some (.arr [.str "lodash"])) = .ok false ∧
    (getManifestContent gistC2 =
       .ok ⟨c2Content, gistC2.setFile PLAYGROUND_FILE ⟨c2Content⟩, [c2Content]⟩ ∧
     parseJson c2Content =
       some (.obj [("scripts",
         .arr [.str "lodash", .str "react", .str "react-dom"])]) ∧
     jsArrIncludes [Json.str "lodash", .str "react", .str "react-dom"]
       (.str "react") = true ∧
     jsArrIncludes [Json.str "lodash", .str "react", .str "react-dom"]
       (.str "react-dom") = true ∧
     primNodup [Json.str "lodash", .str "react", .str "react-dom"] = true) :=
  ⟨rfl, rfl, rfl, rfl, rfl,
   claim_c2_react_injection.1 gistC2 ⟨c2Input⟩ (.obj [("scripts", .arr [.str "lodash"])])
     [.str "lodash"] rfl rfl rfl rfl rfl⟩

/-- The C3 counterexample bundle: a React-dialect file next to a manifest
whose scripts list ALREADY includes both libraries — with a duplicate. -/
def c3dupInput : String := "\x7b\"scripts\":[\"react\",\"react\",\"react-dom\"]\x7d"

def gistC3dup : Gist := ⟨"c3", [("script.jsx", ⟨"1"⟩), (PLAYGROUND_FILE, ⟨c3dupInput⟩)]⟩

/-- C3 counterexample: when both libraries are already present the
manifest is returned VERBATIM — the dedup pass runs only on the
write-back path — so a scripts list that arrives with a duplicate entry
keeps it, refuting "the resulting scripts list never contains duplicate
library entries". -/
theorem claim_c3_counterexample :
    getManifestContent gistC3dup = .ok ⟨c3dupInput, gistC3dup, []⟩ ∧
    parseJson c3dupInput =
      some (.obj [("scripts",
        .arr [.str "react", .str "react", .str "react-dom"])]) ∧
    primNodup [Json.str "react", .str "react", .str "react-dom"] = false :=
  ⟨rfl, rfl, rfl⟩

/-- C3 amended: manifest resolution is idempotent on its own output — for
every bundle on which it succeeds, re-running it on the resulting bundle
returns the same content and performs no further write — and the scripts
list is duplicate-free in every run that WRITES; a pre-existing duplicate
in a manifest that is returned verbatim is preserved (see the
counterexample). -/
theorem claim_c3_amended (g : Gist) (r : ManifestResult)
    (h : getManifestContent g = .ok r) :
    getManifestContent r.gist = .ok ⟨r.content, r.gist, []⟩ ∧
    (r.writes ≠ [] → ∃ m' elems', parseJson r.content = some m' ∧
      jsGetProp m' "scripts" = .ok (some (.arr elems')) ∧ primNodup elems' = true) :=
  getManifestContent_ok_cases g r h

/-- The C3 witness bundle: injection occurs and the input even carries a
duplicate that the write-back deduplicates. -/
def c3wInput : String := "\x7b\"scripts\":[\"lodash\",\"lodash\"]\x7d"

def gistC3w : Gist := ⟨"c3w", [("script.jsx", ⟨"1"⟩), (PLAYGROUND_FILE, ⟨c3wInput⟩)]⟩

def c3wContent : String :=
  "\x7b\n  \"scripts\": [\n    \"lodash\",\n    \"react\",\n    \"react-dom\"\n  ]\n\x7d"

def gistC3w' : Gist := gistC3w.setFile PLAYGROUND_FILE ⟨c3wContent⟩

theorem claim_c3_witness :
    getManifestContent gistC3w =
      .ok ⟨c3wContent, gistC3w', [c3wContent]⟩ ∧
    getManifestContent gistC3w' = .ok ⟨c3wContent, gistC3w', []⟩ ∧
    (∃ m' elems', parseJson c3wContent = some m' ∧
      jsGetProp m' "scripts" = .ok (some (.arr elems')) ∧ primNodup elems' = true) :=
  ⟨rfl,
   (claim_c3_amended gistC3w ⟨c3wContent, gistC3w', [c3wContent]⟩ rfl).1,
   (claim_c3_amended gistC3w ⟨c3wContent, gistC3w', [c3wContent]⟩ rfl).2 (by simp)⟩
